import Mathlib

/-!
# go-entity: statement generation, cached execution and the cache layer

A shallow embedding of `db.go` and `cache.go` of package `entity`.

* Go `error` values are `Option GoError` (`none` is `nil`); the wrappers of
  `github.com/pkg/errors` are constructors of `GoError`.
* Go maps with string keys are association lists with unique keys (`GoMap`).
* Go strings are Lean strings; `int64` and `time.Duration` values are `Int`
  (no arithmetic is done on them).
* The SQL builder (`goqu`) and the JSON library are external packages: the
  clauses handed to the builder are modelled exactly, the builder's text is a
  parameter, and its error behaviour is the part documented at `Goqu`.
* Calls to external collaborators (transport, cacher, codec) are recorded in
  a call log so that "is not called" and "is called once" can be stated.
-/

namespace Entity

/-! ## Errors -/

/-- Go error values: leaves and the two wrappers of `pkg/errors`. -/
inductive GoError where
  | leaf (msg : String)
  | errNoRows
  | withStack (err : GoError)
  | withMessage (err : GoError) (msg : String)
deriving DecidableEq, Repr

/-- The method `Error()` of an error value: its message. -/
def GoError.Error : GoError → String
  | .leaf msg => msg
  | .errNoRows => "sql: no rows in result set"
  | .withStack err => err.Error
  | .withMessage err msg => msg ++ ": " ++ err.Error

/-- The function `errors.Cause` on a non-nil error: strip every wrapper. -/
def GoError.Cause : GoError → GoError
  | .leaf msg => .leaf msg
  | .errNoRows => .errNoRows
  | .withStack err => err.Cause
  | .withMessage err _ => err.Cause

/-- The function `errors.New`. -/
def errorsNew (msg : String) : GoError := .leaf msg

/-- The function `errors.WithStack`: `nil` stays `nil`. -/
def WithStack (err : Option GoError) : Option GoError :=
  err.map GoError.withStack

/-- The functions `errors.Wrap` and `errors.Wrapf`: `nil` stays `nil`. -/
def Wrap (err : Option GoError) (msg : String) : Option GoError :=
  err.map (fun e => GoError.withStack (GoError.withMessage e msg))

/-! ## Go maps with string keys -/

/-- A Go `map[string]string`, kept as an association list with unique keys. -/
abbrev GoMap := List (String × String)

/-- Map read `v, ok := m[k]`. -/
def GoMap.get? : GoMap → String → Option String
  | [], _ => none
  | (k', v) :: rest, k => if k' = k then some v else GoMap.get? rest k

/-- Map write `m[k] = v`: an existing binding is replaced. -/
def GoMap.set : GoMap → String → String → GoMap
  | [], k, v => [(k, v)]
  | (k', v') :: rest, k, v =>
    if k' = k then (k, v) :: rest else (k', v') :: GoMap.set rest k v

/-! ## Metadata -/

/-- Modelled from the spec: the type `Column` of `metadata.go`, which is not
among the sources; the fields are those read by `db.go` and by the tests. -/
structure Column where
  DBField : String
  PrimaryKey : Bool
  AutoIncrement : Bool
  RefuseUpdate : Bool
  ReturningInsert : Bool
  ReturningUpdate : Bool
deriving DecidableEq, Repr

/-- Modelled from the spec: the type `Metadata` of `metadata.go`, which is not
among the sources; the fields are those read by `db.go` and by the tests. -/
structure Metadata where
  ID : String
  TableName : String
  Columns : List Column
  PrimaryKeys : List Column
  hasReturningInsert : Bool
  hasReturningUpdate : Bool
deriving DecidableEq, Repr

/-! ## Driver names and conflict classification -/

/-- The function `driverName` of `db.go`. -/
def driverName (driver : String) : String :=
  if driver = "pgx" then "postgres" else driver

/-- The function `isPostgres` of `db.go`. -/
def isPostgres (driver : String) : Bool :=
  driverName driver == "postgres"

/-- The function `isMySQL` of `db.go`. -/
def isMySQL (driver : String) : Bool :=
  driverName driver == "mysql"

/-- The function `isSQLite3` of `db.go`. -/
def isSQLite3 (driver : String) : Bool :=
  driverName driver == "sqlite3"

/-- Substring search on character lists: `sub` occurs somewhere in `s`. -/
def containsChars : List Char → List Char → Bool
  | [], sub => sub.isEmpty
  | c :: cs, sub => sub.isPrefixOf (c :: cs) || containsChars cs sub

/-- The function `strings.Contains`. -/
def stringsContains (s substr : String) : Bool :=
  containsChars s.data substr.data

/-- The function `isConflictError` of `db.go`, on a non-nil error. -/
def isConflictError (driver : String) (err : GoError) : Bool :=
  let s := err.Cause.Error
  if isPostgres driver then
    stringsContains s "duplicate key value violates unique constraint"
  else if isMySQL driver then
    stringsContains s "Duplicate entry"
  else if isSQLite3 driver then
    stringsContains s "UNIQUE constraint failed"
  else
    false

/-! ## The SQL builder -/

/-- A `goqu.Ex` whose values are literals `goqu.L(text)`: key to literal text. -/
abbrev Ex := GoMap

/-- The clauses of a `goqu` select dataset as `selectStatement` sets them. -/
structure SelectDataset where
  dialect : String
  table : String
  prepared : Bool
  columns : List String
  limit : Nat
  whereEx : Ex
deriving DecidableEq, Repr

/-- The clauses of a `goqu` insert dataset as `insertStatement` sets them:
`vals` holds one list per call of `Vals`, `returning` is empty when
`Returning` was not called. -/
structure InsertDataset where
  dialect : String
  table : String
  prepared : Bool
  cols : List String
  vals : List (List String)
  returning : List String
deriving DecidableEq, Repr

/-- The clauses of a `goqu` update dataset as `updateStatement` sets them. -/
structure UpdateDataset where
  dialect : String
  table : String
  prepared : Bool
  set : Ex
  whereEx : Ex
  returning : List String
deriving DecidableEq, Repr

/-- The clauses of a `goqu` delete dataset as `deleteStatement` sets them. -/
structure DeleteDataset where
  dialect : String
  table : String
  prepared : Bool
  whereEx : Ex
deriving DecidableEq, Repr

/-- A dataset of any of the four kinds. -/
inductive Dataset where
  | select (ds : SelectDataset)
  | insert (ds : InsertDataset)
  | update (ds : UpdateDataset)
  | delete (ds : DeleteDataset)
deriving DecidableEq, Repr

/-- The external package `goqu` (version 9), as far as `db.go` relies on it:
`render` is the SQL text of a dataset and `registry d` is the option
`SupportsReturn` of the dialect that `goqu.Dialect(d)` yields for a name `d`
other than `mysql` and `postgres`. Table and column names are taken to be
well-formed identifiers (schema extraction rejects an empty table name); for these
the generation errors are the two that `insertToSQL` and `updateToSQL` spell
out. -/
structure Goqu where
  registry : String → Bool
  render : Dataset → String

/-- The option `SupportsReturn` of the dialect that `goqu.Dialect(dialect)`
yields: off for `mysql`, on for `postgres` (`db_test.go` relies on both). -/
def Goqu.supportsReturn (g : Goqu) (dialect : String) : Bool :=
  if dialect = "mysql" then false
  else if dialect = "postgres" then true
  else g.registry dialect

/-- The error of `goqu` for a RETURNING clause on a dialect without it. -/
def errReturnNotSupported (dialect : String) : GoError :=
  .leaf ("goqu: dialect does not support RETURNING clause [dialect=" ++ dialect ++ "]")

/-- The error `ErrNoUpdatedValuesProvided` of `goqu`. -/
def errNoUpdatedValuesProvided : GoError :=
  .leaf "goqu: no update values provided"

/-- Whether the RETURNING fragment of a dataset is rejected: the column list is
non-empty and the dialect has `SupportsReturn` off. -/
def Goqu.returningRejected (g : Goqu) (dialect : String) (returning : List String) : Bool :=
  decide (returning.length > 0) && !g.supportsReturn dialect

/-- The method `ToSQL` of a select dataset: text and error. -/
def Goqu.selectToSQL (g : Goqu) (ds : SelectDataset) : String × Option GoError :=
  (g.render (.select ds), none)

/-- The method `ToSQL` of an insert dataset: text and error. The RETURNING
fragment sets an error when the column list is not empty and the dialect has
`SupportsReturn` off. On an error the text is empty. -/
def Goqu.insertToSQL (g : Goqu) (ds : InsertDataset) : String × Option GoError :=
  if g.returningRejected ds.dialect ds.returning then
    ("", some (errReturnNotSupported ds.dialect))
  else
    (g.render (.insert ds), none)

/-- The method `ToSQL` of an update dataset: text and error. The update
generator of `goqu` turns the SET map into one update expression per key and
sets `ErrNoUpdatedValuesProvided` when there is none; its RETURNING fragment
sets an error when the column list is not empty and the dialect has
`SupportsReturn` off. On an error the text is empty. -/
def Goqu.updateToSQL (g : Goqu) (ds : UpdateDataset) : String × Option GoError :=
  if ds.set.isEmpty then
    ("", some errNoUpdatedValuesProvided)
  else if g.returningRejected ds.dialect ds.returning then
    ("", some (errReturnNotSupported ds.dialect))
  else
    (g.render (.update ds), none)

/-- The method `ToSQL` of a delete dataset: text and error. -/
def Goqu.deleteToSQL (g : Goqu) (ds : DeleteDataset) : String × Option GoError :=
  (g.render (.delete ds), none)

/-! ## Statement generation -/

/-- The loop `for _, col := range md.PrimaryKeys { where[col.DBField] = goqu.L(":" + col.DBField) }`
shared by the select, update and delete statements. -/
def primaryKeyWhere (md : Metadata) : Ex :=
  md.PrimaryKeys.foldl (fun ex col => GoMap.set ex col.DBField (":" ++ col.DBField)) []

/-- The dataset that `selectStatement` builds before `ToSQL`. -/
def selectDataset (md : Metadata) (driver : String) : SelectDataset :=
  let columns := md.Columns.foldl (fun columns col => columns ++ [col.DBField]) []
  { dialect := driverName driver
    table := md.TableName
    prepared := false
    columns := columns
    limit := 1
    whereEx := primaryKeyWhere md }

/-- The function `selectStatement` of `db.go` (its unused entity argument is
left out). -/
def selectStatement (g : Goqu) (md : Metadata) (driver : String) : String × Option GoError :=
  let r := g.selectToSQL (selectDataset md driver)
  (r.1, WithStack r.2)

/-- One step of the loop of `insertStatement` over the state
`(columns, returning, valuePlaceholder)`. -/
def insertStep (acc : List String × List String × List String) (col : Column) :
    List String × List String × List String :=
  if col.ReturningInsert then
    (acc.1, acc.2.1 ++ [col.DBField], acc.2.2)
  else if !col.AutoIncrement then
    (acc.1 ++ [col.DBField], acc.2.1, acc.2.2 ++ [":" ++ col.DBField])
  else
    acc

/-- The dataset that `insertStatement` builds before `ToSQL`. -/
def insertDataset (md : Metadata) (driver : String) : InsertDataset :=
  let acc := md.Columns.foldl insertStep ([], [], [])
  let columns := acc.1
  let returning := acc.2.1
  let valuePlaceholder := acc.2.2
  let stmt : InsertDataset :=
    { dialect := driverName driver
      table := md.TableName
      prepared := false
      cols := columns
      vals := [valuePlaceholder]
      returning := [] }
  if returning.length > 0 then { stmt with returning := returning } else stmt

/-- The function `insertStatement` of `db.go` (its unused entity argument is
left out). -/
def insertStatement (g : Goqu) (md : Metadata) (driver : String) : String × Option GoError :=
  let r := g.insertToSQL (insertDataset md driver)
  (r.1, WithStack r.2)

/-- One step of the loop of `updateStatement` over the state `(returning, set)`. -/
def updateStep (acc : List String × Ex) (col : Column) : List String × Ex :=
  if col.ReturningUpdate then
    (acc.1 ++ [col.DBField], acc.2)
  else if !col.RefuseUpdate then
    (acc.1, GoMap.set acc.2 col.DBField (":" ++ col.DBField))
  else
    acc

/-- The dataset that `updateStatement` builds before `ToSQL`. -/
def updateDataset (md : Metadata) (driver : String) : UpdateDataset :=
  let acc := md.Columns.foldl updateStep ([], [])
  let returning := acc.1
  let set := acc.2
  let stmt : UpdateDataset :=
    { dialect := driverName driver
      table := md.TableName
      prepared := false
      set := set
      whereEx := primaryKeyWhere md
      returning := [] }
  if returning.length > 0 then { stmt with returning := returning } else stmt

/-- The function `updateStatement` of `db.go` (its unused entity argument is
left out). -/
def updateStatement (g : Goqu) (md : Metadata) (driver : String) : String × Option GoError :=
  let r := g.updateToSQL (updateDataset md driver)
  (r.1, WithStack r.2)

/-- The dataset that `deleteStatement` builds before `ToSQL`. -/
def deleteDataset (md : Metadata) (driver : String) : DeleteDataset :=
  { dialect := driverName driver
    table := md.TableName
    prepared := false
    whereEx := primaryKeyWhere md }

/-- The function `deleteStatement` of `db.go` (its unused entity argument is
left out). -/
def deleteStatement (g : Goqu) (md : Metadata) (driver : String) : String × Option GoError :=
  let r := g.deleteToSQL (deleteDataset md driver)
  (r.1, WithStack r.2)

/-! ## Cached execution -/

/-- The four package-level statement maps of `db.go`. -/
structure Statements where
  selectStatements : GoMap
  insertStatements : GoMap
  updateStatements : GoMap
  deleteStatements : GoMap
deriving DecidableEq, Repr

/-- A `*sqlx.Rows` as the executor reads it: the result of `Next()`, the effect
of `StructScan(ent)` on the entity with its error, and the result of `Err()`. -/
structure Rows (Ent : Type) where
  Next : Bool
  StructScan : Ent → Ent × Option GoError
  Err : Option GoError

/-- A `sql.Result`: the two methods return an `int64` and an error. -/
structure Result where
  LastInsertId : Int × Option GoError
  RowsAffected : Int × Option GoError

/-- The methods of the interface `DB` that the executor calls, at one moment
of the transport: the driver name, and the answers to a named query and to a
named exec of a statement bound to an entity. -/
structure DB (Ent : Type) where
  DriverName : String
  NamedQueryContext : String → Ent → Except GoError (Rows Ent)
  NamedExecContext : String → Ent → Except GoError Result

/-- The four operations. -/
inductive Operation where
  | select
  | insert
  | update
  | delete
deriving DecidableEq, Repr

/-- The calls the executor makes to the statement generators and to the
transport, in the order they are made. -/
inductive Call where
  | generate (op : Operation) (driver : String)
  | NamedQueryContext (stmt : String)
  | NamedExecContext (stmt : String)
deriving DecidableEq, Repr

/-- What a call of the executor leaves behind: the statement maps, the entity,
the returned value and error, and the calls made. -/
structure Outcome (Ent α : Type) where
  statements : Statements
  ent : Ent
  value : α
  err : Option GoError
  calls : List Call

/-- The block shared by `doLoad`, `doInsert` and `doUpdate`: run the statement
as a named query, fail with `sql.ErrNoRows` when there is no row, else scan the
row into the entity and return `rows.Err()`. -/
def queryRow {Ent α : Type} (S : Statements) (calls : List Call) (zero : α) (stmt : String)
    (ent : Ent) (db : DB Ent) : Outcome Ent α :=
  let calls := calls ++ [Call.NamedQueryContext stmt]
  match db.NamedQueryContext stmt ent with
  | .error err => ⟨S, ent, zero, WithStack (some err), calls⟩
  | .ok rows =>
    if !rows.Next then
      ⟨S, ent, zero, WithStack (some GoError.errNoRows), calls⟩
    else
      match rows.StructScan ent with
      | (ent', some err) => ⟨S, ent', zero, WithStack (some err), calls⟩
      | (ent', none) => ⟨S, ent', zero, WithStack rows.Err, calls⟩

/-- The function `doLoad` of `db.go`; `getMetadata` lives in `metadata.go`, which
is not among the sources, and is a parameter. -/
def doLoad {Ent : Type} (g : Goqu) (getMetadata : Ent → Except GoError Metadata)
    (S : Statements) (ent : Ent) (db : DB Ent) : Outcome Ent Unit :=
  match getMetadata ent with
  | .error err => ⟨S, ent, (), some err, []⟩
  | .ok md =>
    match S.selectStatements.get? md.ID with
    | some stmt => queryRow S [] () stmt ent db
    | none =>
      match selectStatement g md db.DriverName with
      | (_, some err) => ⟨S, ent, (), some err, [Call.generate .select db.DriverName]⟩
      | (stmt, none) =>
        queryRow { S with selectStatements := S.selectStatements.set md.ID stmt }
          [Call.generate .select db.DriverName] () stmt ent db

/-- The part of `doInsert` after the statement is at hand. -/
def insertRun {Ent : Type} (md : Metadata) (S : Statements) (calls : List Call) (stmt : String)
    (ent : Ent) (db : DB Ent) : Outcome Ent Int :=
  if md.hasReturningInsert then
    queryRow S calls 0 stmt ent db
  else
    let calls := calls ++ [Call.NamedExecContext stmt]
    match db.NamedExecContext stmt ent with
    | .error err => ⟨S, ent, 0, WithStack (some err), calls⟩
    | .ok result =>
      if isPostgres db.DriverName then
        ⟨S, ent, 0, none, calls⟩
      else
        ⟨S, ent, result.LastInsertId.1, WithStack result.LastInsertId.2, calls⟩

/-- The function `doInsert` of `db.go`. -/
def doInsert {Ent : Type} (g : Goqu) (getMetadata : Ent → Except GoError Metadata)
    (S : Statements) (ent : Ent) (db : DB Ent) : Outcome Ent Int :=
  match getMetadata ent with
  | .error err => ⟨S, ent, 0, some err, []⟩
  | .ok md =>
    match S.insertStatements.get? md.ID with
    | some stmt => insertRun md S [] stmt ent db
    | none =>
      match insertStatement g md db.DriverName with
      | (_, some err) => ⟨S, ent, 0, some err, [Call.generate .insert db.DriverName]⟩
      | (stmt, none) =>
        insertRun md { S with insertStatements := S.insertStatements.set md.ID stmt }
          [Call.generate .insert db.DriverName] stmt ent db

/-- The part of `doUpdate` after the statement is at hand. -/
def updateRun {Ent : Type} (md : Metadata) (S : Statements) (calls : List Call) (stmt : String)
    (ent : Ent) (db : DB Ent) : Outcome Ent Unit :=
  if md.hasReturningUpdate then
    queryRow S calls () stmt ent db
  else
    let calls := calls ++ [Call.NamedExecContext stmt]
    match db.NamedExecContext stmt ent with
    | .error err => ⟨S, ent, (), WithStack (some err), calls⟩
    | .ok result =>
      match result.RowsAffected with
      | (_, some err) => ⟨S, ent, (), WithStack (some err), calls⟩
      | (n, none) =>
        if n = 0 then
          ⟨S, ent, (), WithStack (some GoError.errNoRows), calls⟩
        else
          ⟨S, ent, (), none, calls⟩

/-- The function `doUpdate` of `db.go`. -/
def doUpdate {Ent : Type} (g : Goqu) (getMetadata : Ent → Except GoError Metadata)
    (S : Statements) (ent : Ent) (db : DB Ent) : Outcome Ent Unit :=
  match getMetadata ent with
  | .error err => ⟨S, ent, (), some err, []⟩
  | .ok md =>
    match S.updateStatements.get? md.ID with
    | some stmt => updateRun md S [] stmt ent db
    | none =>
      match updateStatement g md db.DriverName with
      | (_, some err) => ⟨S, ent, (), some err, [Call.generate .update db.DriverName]⟩
      | (stmt, none) =>
        updateRun md { S with updateStatements := S.updateStatements.set md.ID stmt }
          [Call.generate .update db.DriverName] stmt ent db

/-- The part of `doDelete` after the statement is at hand. -/
def deleteRun {Ent : Type} (md : Metadata) (S : Statements) (calls : List Call) (stmt : String)
    (ent : Ent) (db : DB Ent) : Outcome Ent Unit :=
  let calls := calls ++ [Call.NamedExecContext stmt]
  match db.NamedExecContext stmt ent with
  | .error err => ⟨S, ent, (), Wrap (some err) ("delete entity " ++ md.ID), calls⟩
  | .ok _ => ⟨S, ent, (), Wrap none ("delete entity " ++ md.ID), calls⟩

/-- The function `doDelete` of `db.go`. -/
def doDelete {Ent : Type} (g : Goqu) (getMetadata : Ent → Except GoError Metadata)
    (S : Statements) (ent : Ent) (db : DB Ent) : Outcome Ent Unit :=
  match getMetadata ent with
  | .error err => ⟨S, ent, (), Wrap (some err) "delete entity", []⟩
  | .ok md =>
    match S.deleteStatements.get? md.ID with
    | some stmt => deleteRun md S [] stmt ent db
    | none =>
      match deleteStatement g md db.DriverName with
      | (_, some err) => ⟨S, ent, (), some err, [Call.generate .delete db.DriverName]⟩
      | (stmt, none) =>
        deleteRun md { S with deleteStatements := S.deleteStatements.set md.ID stmt }
          [Call.generate .delete db.DriverName] stmt ent db

/-- The transport call of an operation on a statement: a named query when the
operation reads rows back, a named exec otherwise. -/
def transportCall (returning : Bool) (stmt : String) : Call :=
  if returning then Call.NamedQueryContext stmt else Call.NamedExecContext stmt

/-- The write-once discipline of one statement map: `slot` reads the map of the
operation and `put` writes it, `gen` is the generator at a driver name, `send`
the transport call of the operation, `id` the metadata id, `run` the operation
and `ofType` says that an entity has the metadata at hand.
(1) With an entry for `id` the maps stay as they are and the one call made is
the transport call on the stored text. (2) Without an entry and with a failing
generation the maps stay as they are, the error of the generator is returned
and the one call made is the generator. (3) Without an entry and with a
successful generation the generated text is stored under `id` and sent.
(4) After a call that reached the transport with a text, a second call, on any
transport, makes one call only, the transport call on the same text, and
leaves the maps as they are. (5) A binding of the map after a call was there
before, unless it is the generated text stored under a so far unbound `id`. -/
def WriteOnce {Ent α : Type} (op : Operation) (slot : Statements → GoMap)
    (put : Statements → GoMap → Statements) (gen : String → String × Option GoError)
    (send : String → Call) (id : String)
    (run : Statements → Ent → DB Ent → Outcome Ent α) (ofType : Ent → Prop) : Prop :=
  (∀ S ent db stmt, ofType ent → (slot S).get? id = some stmt →
    (run S ent db).statements = S ∧ (run S ent db).calls = [send stmt]) ∧
  (∀ S ent db err, ofType ent → (slot S).get? id = none → (gen db.DriverName).2 = some err →
    (run S ent db).statements = S ∧ (run S ent db).err = some err ∧
      (run S ent db).calls = [Call.generate op db.DriverName]) ∧
  (∀ S ent db, ofType ent → (slot S).get? id = none → (gen db.DriverName).2 = none →
    (run S ent db).statements = put S ((slot S).set id (gen db.DriverName).1) ∧
      (run S ent db).calls =
        [Call.generate op db.DriverName, send (gen db.DriverName).1]) ∧
  (∀ S ent₁ db₁ ent₂ db₂ stmt, ofType ent₁ → ofType ent₂ →
    send stmt ∈ (run S ent₁ db₁).calls →
    (run (run S ent₁ db₁).statements ent₂ db₂).calls = [send stmt] ∧
      (run (run S ent₁ db₁).statements ent₂ db₂).statements = (run S ent₁ db₁).statements) ∧
  (∀ S ent db k v, ofType ent → (slot (run S ent db).statements).get? k = some v →
    (slot S).get? k = some v ∨
      (k = id ∧ (slot S).get? id = none ∧ gen db.DriverName = (v, none)))

/-! ## Cache layer -/

/-- A Go `[]byte`; the nil slice and the empty slice are both `[]`. -/
abbrev Bytes := List UInt8

/-- A Go `time.Duration`: nanoseconds in an `int64`. -/
abbrev Duration := Int

/-- The constant `time.Minute`. -/
def Minute : Duration := 60 * 1000000000

/-- A value of the interface `Cacher`: the object identity `id` and the three
methods, each acting on the state `W` of the cache backends. -/
structure Cacher (W : Type) where
  id : Nat
  Get : String → W → (Bytes × Option GoError) × W
  Put : String → Bytes → Duration → W → Option GoError × W
  Delete : String → W → Option GoError × W

/-- A value of the interface `Encoder`. -/
structure Encoder (E : Type) where
  Encode : E → Bytes × Option GoError

/-- A value of the interface `Decoder`: `Decode` writes into the entity. -/
structure Decoder (E : Type) where
  Decode : Bytes → E → E × Option GoError

/-- The type `JSONEnDecoder`; its two methods call the external package
`jsoniter`, whose `Marshal` and `Unmarshal` are the fields. -/
structure JSONEnDecoder (E : Type) where
  Marshal : E → Bytes × Option GoError
  Unmarshal : Bytes → E → E × Option GoError

/-- The method `Encode` of `JSONEnDecoder`. -/
def JSONEnDecoder.Encode {E : Type} (j : JSONEnDecoder E) (c : E) : Bytes × Option GoError :=
  let r := j.Marshal c
  (r.1, WithStack r.2)

/-- The method `Decode` of `JSONEnDecoder`. -/
def JSONEnDecoder.Decode {E : Type} (j : JSONEnDecoder E) (data : Bytes) (c : E) :
    E × Option GoError :=
  let r := j.Unmarshal data c
  (r.1, WithStack r.2)

/-- The type `CacheOption` of `cache.go`; a nil interface field is `none`. -/
structure CacheOption (W E : Type) where
  Cacher : Option (Cacher W)
  Key : String
  Expiration : Duration
  Encoder : Option (Encoder E)
  Decoder : Option (Decoder E)

/-- The package-level variables `DefaultCacher`, `DefaultEnDecoder` and
`DefaultExpiration` of `cache.go`. -/
structure CacheConfig (W E : Type) where
  DefaultCacher : Option (Cacher W)
  DefaultEnDecoder : JSONEnDecoder E
  DefaultExpiration : Duration

/-- The package-level variables as their declarations initialise them. -/
def initialCacheConfig {W E : Type} (json : JSONEnDecoder E) : CacheConfig W E :=
  { DefaultCacher := none
    DefaultEnDecoder := json
    DefaultExpiration := 5 * Minute }

/-- The calls the cache layer makes to cachers and codecs, in order; `custom`
tells the entity-supplied codec from `DefaultEnDecoder`. -/
inductive CacheCall where
  | Get (cacher : Nat) (key : String)
  | Put (cacher : Nat) (key : String) (data : Bytes) (expiration : Duration)
  | Delete (cacher : Nat) (key : String)
  | Encode (custom : Bool)
  | Decode (custom : Bool) (data : Bytes)
deriving DecidableEq, Repr

/-- What a call of the cache layer leaves behind: the state of the backends,
the entity, the returned value and error, and the calls made. -/
structure CacheOutcome (W E α : Type) where
  world : W
  ent : E
  value : α
  err : Option GoError
  calls : List CacheCall

/-- An implementation of the interface `Cacheable` by an entity type `E`: the
method `CacheOption()` returns a pointer, `CacheOption c` is the struct behind
it, and `store c opt` is the entity once that struct has been overwritten with
`opt`. A type that builds a fresh struct on every call has `store c opt = c`; a
type that hands out a struct it keeps has the entity with that struct
replaced. -/
structure Cacheable (W E : Type) where
  store : E → CacheOption W E → E
  CacheOption : E → CacheOption W E

/-- The error of calling a method on a nil interface; the branches that return
it are not reached: a resolved option has a cacher (`getCacheOption_ok`). -/
def nilDereference : GoError := .leaf "invalid memory address or nil pointer dereference"

/-- The function `getCacheOption` of `cache.go`: the returned option and error,
and the entity after the call. The writes `opt.Cacher = DefaultCacher` and
`opt.Expiration = DefaultExpiration` go through the pointer that
`CacheOption()` returned, so each of them is a `store` on the entity; the
pointer is taken to be non-nil. -/
def getCacheOption {W E : Type} (cfg : CacheConfig W E) (T : Cacheable W E) (c : E) :
    Except GoError (CacheOption W E) × E :=
  let opt := T.CacheOption c
  match (match opt.Cacher with
      | none =>
        match cfg.DefaultCacher with
        | none => (Except.error (errorsNew "require cacher"), c)
        | some d => (Except.ok { opt with Cacher := some d }, T.store c { opt with Cacher := some d })
      | some _ => (Except.ok opt, c)) with
  | (.error err, c) => (.error err, c)
  | (.ok opt, c) =>
    if opt.Key = "" then
      (.error (errorsNew "empty cache key"), c)
    else if opt.Expiration = 0 then
      (.ok { opt with Expiration := cfg.DefaultExpiration },
        T.store c { opt with Expiration := cfg.DefaultExpiration })
    else
      (.ok opt, c)

/-- The branch of `loadCache` on `opt.Decoder`: the error, the entity after the
decoding, and the call made. -/
def decodeWith {W E : Type} (cfg : CacheConfig W E) (opt : CacheOption W E) (data : Bytes)
    (c : E) : (E × Option GoError) × CacheCall :=
  match opt.Decoder with
  | none => (cfg.DefaultEnDecoder.Decode data c, CacheCall.Decode false data)
  | some dec =>
    let r := dec.Decode data c
    ((r.1, WithStack r.2), CacheCall.Decode true data)

/-- The function `loadCache` of `cache.go`. -/
def loadCache {W E : Type} (cfg : CacheConfig W E) (T : Cacheable W E)
    (c : E) (w : W) : CacheOutcome W E Bool :=
  match getCacheOption cfg T c with
  | (.error err, c) => ⟨w, c, false, some err, []⟩
  | (.ok opt, c) =>
    match opt.Cacher with
    | none => ⟨w, c, false, some nilDereference, []⟩
    | some cacher =>
      let r := cacher.Get opt.Key w
      let calls := [CacheCall.Get cacher.id opt.Key]
      match r.1.2 with
      | some err => ⟨r.2, c, false, WithStack (some err), calls⟩
      | none =>
        if r.1.1.length = 0 then
          ⟨r.2, c, false, none, calls⟩
        else
          let d := decodeWith cfg opt r.1.1 c
          ⟨r.2, d.1.1, d.1.2.isNone, d.1.2, calls ++ [d.2]⟩

/-- The branch of `SaveCache` on `opt.Encoder`: data, error and the call made. -/
def encodeWith {W E : Type} (cfg : CacheConfig W E) (opt : CacheOption W E) (c : E) :
    (Bytes × Option GoError) × CacheCall :=
  match opt.Encoder with
  | none => (cfg.DefaultEnDecoder.Encode c, CacheCall.Encode false)
  | some enc => (enc.Encode c, CacheCall.Encode true)

/-- The function `SaveCache` of `cache.go`. -/
def SaveCache {W E : Type} (cfg : CacheConfig W E) (T : Cacheable W E)
    (c : E) (w : W) : CacheOutcome W E Unit :=
  match getCacheOption cfg T c with
  | (.error err, c) => ⟨w, c, (), some err, []⟩
  | (.ok opt, c) =>
    let e := encodeWith cfg opt c
    match e.1.2 with
    | some err => ⟨w, c, (), WithStack (some err), [e.2]⟩
    | none =>
      match opt.Cacher with
      | none => ⟨w, c, (), some nilDereference, [e.2]⟩
      | some cacher =>
        let r := cacher.Put opt.Key e.1.1 opt.Expiration w
        ⟨r.2, c, (), Wrap r.1 "save entity cache",
          [e.2, CacheCall.Put cacher.id opt.Key e.1.1 opt.Expiration]⟩

/-- The function `DeleteCache` of `cache.go`. -/
def DeleteCache {W E : Type} (cfg : CacheConfig W E) (T : Cacheable W E)
    (c : E) (w : W) : CacheOutcome W E Unit :=
  match getCacheOption cfg T c with
  | (.error err, c) => ⟨w, c, (), some err, []⟩
  | (.ok opt, c) =>
    match opt.Cacher with
    | none => ⟨w, c, (), some nilDereference, []⟩
    | some cacher =>
      let r := cacher.Delete opt.Key w
      ⟨r.2, c, (), Wrap r.1 "delete entity cache", [CacheCall.Delete cacher.id opt.Key]⟩

/-- Whether a call is a `Put` on a cacher. -/
def CacheCall.isPut : CacheCall → Bool
  | .Put _ _ _ _ => true
  | _ => false

/-- Whether a call goes to a decoder. -/
def CacheCall.isDecode : CacheCall → Bool
  | .Decode _ _ => true
  | _ => false

/-! ## Sample data -/

/-- The metadata of `GenernalEntity` of `entity_test.go`, with the flags that
`TestColumns` expects. -/
def genernalMetadata : Metadata :=
  let id : Column := ⟨"id", true, true, true, false, false⟩
  let id2 : Column := ⟨"id2", true, false, true, false, false⟩
  let name : Column := ⟨"name", false, false, false, false, false⟩
  let createAt : Column := ⟨"create_at", false, false, true, true, false⟩
  let version : Column := ⟨"version", false, false, true, true, true⟩
  { ID := "genernal"
    TableName := "genernal"
    Columns := [id, id2, name, createAt, version]
    PrimaryKeys := [id, id2]
    hasReturningInsert := true
    hasReturningUpdate := true }

/-- A column flagged `ReturningUpdate` but not `RefuseUpdate`. -/
def counterColumn : Column := ⟨"counter", false, false, false, false, true⟩

/-- A metadata whose only non-key column is `counterColumn`. -/
def counterMetadata : Metadata :=
  let id : Column := ⟨"id", true, false, true, false, false⟩
  { ID := "counters"
    TableName := "counters"
    Columns := [id, counterColumn]
    PrimaryKeys := [id]
    hasReturningInsert := false
    hasReturningUpdate := true }

/-- A metadata with a primary key and one column tagged `returning`, flagged
the way `TestColumns` expects for the tags `primaryKey` and `returning`. -/
def versionedMetadata : Metadata :=
  let id : Column := ⟨"id", true, false, true, false, false⟩
  let version : Column := ⟨"version", false, false, true, true, true⟩
  { ID := "versioned"
    TableName := "versioned"
    Columns := [id, version]
    PrimaryKeys := [id]
    hasReturningInsert := true
    hasReturningUpdate := true }

/-- A builder instance for concrete evaluation: every dialect other than
`mysql` and `postgres` has RETURNING, and the text names kind and table. -/
def sampleGoqu : Goqu :=
  { registry := fun _ => true
    render := fun ds =>
      match ds with
      | .select ds => "SELECT FROM " ++ ds.table
      | .insert ds => "INSERT INTO " ++ ds.table
      | .update ds => "UPDATE " ++ ds.table
      | .delete ds => "DELETE FROM " ++ ds.table }

/-- A metadata without returning columns: a primary key and a plain column. -/
def plainMetadata : Metadata :=
  let id : Column := ⟨"id", true, false, true, false, false⟩
  let name : Column := ⟨"name", false, false, false, false, false⟩
  { ID := "plain"
    TableName := "plain"
    Columns := [id, name]
    PrimaryKeys := [id]
    hasReturningInsert := false
    hasReturningUpdate := false }

/-- Statement maps without entries, as at program start. -/
def emptyStatements : Statements := ⟨[], [], [], []⟩

/-- A transport with the given driver name that returns one row to a query and
reports `n` affected rows for an exec. -/
def sampleDB (driver : String) (n : Int) : DB Unit :=
  { DriverName := driver
    NamedQueryContext := fun _ _ => .ok ⟨true, fun e => (e, none), none⟩
    NamedExecContext := fun _ _ => .ok ⟨(0, none), (n, none)⟩ }

/-- The metadata lookup of an entity type whose metadata is `md`. -/
def constMetadata (md : Metadata) : Unit → Except GoError Metadata :=
  fun _ => .ok md

/-- A cache backend held in memory: key to payload, newest binding first. -/
abbrev MemoryStore := List (String × Bytes)

/-- The payload stored under a key, empty when there is none. -/
def MemoryStore.read : MemoryStore → String → Bytes
  | [], _ => []
  | (k', d) :: rest, k => if k' = k then d else MemoryStore.read rest k

/-- A cacher on `MemoryStore` that never fails and ignores the expiration. -/
def memoryCacher : Cacher MemoryStore :=
  { id := 1
    Get := fun k w => ((w.read k, none), w)
    Put := fun k d _ w => (none, (k, d) :: w)
    Delete := fun k w => (none, w.filter (fun p => p.1 != k)) }

/-- An entity with one boolean field; its zero value has `On = false`. -/
structure Switch where
  On : Bool
deriving DecidableEq, Repr

/-- An encoder that writes the switch that is on as the empty payload. -/
def switchEncoder : Encoder Switch :=
  ⟨fun c => (if c.On then [] else [0], none)⟩

/-- The decoder that inverts `switchEncoder`. -/
def switchDecoder : Decoder Switch :=
  ⟨fun data _ => (⟨data.isEmpty⟩, none)⟩

/-- A one-byte stand-in for `jsoniter` on `Switch`. -/
def switchJSON : JSONEnDecoder Switch :=
  { Marshal := fun c => ([if c.On then 1 else 0], none)
    Unmarshal := fun data _ => (⟨data == [1]⟩, none) }

/-- A `Switch` type that brings its own cacher and codec; `CacheOption()` builds
a fresh struct on every call. -/
def switchOption : Cacheable MemoryStore Switch :=
  { store := fun c _ => c
    CacheOption := fun _ =>
      { Cacher := some memoryCacher
        Key := "switch"
        Expiration := 0
        Encoder := some switchEncoder
        Decoder := some switchDecoder } }

/-- A `Switch` type that relies on the defaults; `CacheOption()` builds a fresh
struct on every call. -/
def defaultedOption : Cacheable MemoryStore Switch :=
  { store := fun c _ => c
    CacheOption := fun _ =>
      { Cacher := none
        Key := "switch"
        Expiration := 0
        Encoder := none
        Decoder := none } }

/-- A `Switch` type with an empty key; `CacheOption()` builds a fresh struct on
every call. -/
def keylessOption : Cacheable MemoryStore Switch :=
  { store := fun c _ => c
    CacheOption := fun _ =>
      { Cacher := some memoryCacher
        Key := ""
        Expiration := 0
        Encoder := none
        Decoder := none } }

/-- An entity that embeds its `CacheOption` struct, the codec fields nil, and
whose `CacheOption()` returns the address of that struct. -/
structure Session where
  Cacher : Option (Cacher MemoryStore)
  Key : String
  Expiration : Duration

/-- The implementation of `Cacheable` by `Session`: a write through the pointer
is a write to the embedded struct. -/
def sessionOption : Cacheable MemoryStore Session :=
  { store := fun _ opt => ⟨opt.Cacher, opt.Key, opt.Expiration⟩
    CacheOption := fun c => ⟨c.Cacher, c.Key, c.Expiration, none, none⟩ }

/-- A session with a cacher and a key and with the zero expiration. -/
def idleSession : Session := ⟨some memoryCacher, "session", 0⟩

/-- The package variables for `Session`, `DefaultCacher` set to `memoryCacher`;
the stand-in for `jsoniter` writes one byte and reads nothing back. -/
def sessionConfig : CacheConfig MemoryStore Session :=
  { DefaultCacher := some memoryCacher
    DefaultEnDecoder := { Marshal := fun _ => ([1], none), Unmarshal := fun _ c => (c, none) }
    DefaultExpiration := 5 * Minute }

/-- The package variables after `DefaultCacher` was set to `memoryCacher`. -/
def memoryConfig : CacheConfig MemoryStore Switch :=
  { DefaultCacher := some memoryCacher
    DefaultEnDecoder := switchJSON
    DefaultExpiration := 5 * Minute }

/-! ## Lemmas on maps and on the loops -/

theorem GoMap.get?_set (m : GoMap) (k v k' : String) :
    GoMap.get? (GoMap.set m k v) k' = if k = k' then some v else GoMap.get? m k' := by
  induction m with
  | nil => simp [GoMap.set, GoMap.get?]
  | cons p rest ih =>
    obtain ⟨a, b⟩ := p
    by_cases h : a = k
    · subst h
      by_cases h2 : a = k' <;> simp [GoMap.set, GoMap.get?, h2]
    · by_cases h2 : a = k'
      · subst h2
        have h3 : ¬ k = a := fun h3 => h h3.symm
        simp [GoMap.set, GoMap.get?, h, h3]
      · simp [GoMap.set, GoMap.get?, h, h2, ih]

theorem GoMap.set_ne_nil (m : GoMap) (k v : String) : GoMap.set m k v ≠ [] := by
  cases m with
  | nil => simp [GoMap.set]
  | cons p rest =>
    obtain ⟨a, b⟩ := p
    by_cases h : a = k <;> simp [GoMap.set, h]

theorem updateStep_fold_set (cols : List Column) (acc : List String × Ex) (k : String) :
    GoMap.get? (cols.foldl updateStep acc).2 k =
      if ∃ c ∈ cols, c.DBField = k ∧ c.ReturningUpdate = false ∧ c.RefuseUpdate = false
      then some (":" ++ k) else GoMap.get? acc.2 k := by
  induction cols generalizing acc with
  | nil => simp
  | cons c cs ih =>
    rw [List.foldl_cons, ih]
    by_cases hcs : ∃ c ∈ cs, c.DBField = k ∧ c.ReturningUpdate = false ∧ c.RefuseUpdate = false
    · have : ∃ c' ∈ c :: cs, c'.DBField = k ∧ c'.ReturningUpdate = false ∧ c'.RefuseUpdate = false := by
        obtain ⟨x, hx, hp⟩ := hcs
        exact ⟨x, List.mem_cons_of_mem _ hx, hp⟩
      rw [if_pos hcs, if_pos this]
    · rw [if_neg hcs]
      by_cases hc : c.DBField = k ∧ c.ReturningUpdate = false ∧ c.RefuseUpdate = false
      · have : ∃ c' ∈ c :: cs, c'.DBField = k ∧ c'.ReturningUpdate = false ∧ c'.RefuseUpdate = false :=
          ⟨c, List.mem_cons_self _ _, hc⟩
        rw [if_pos this]
        obtain ⟨h1, h2, h3⟩ := hc
        simp [updateStep, h2, h3, GoMap.get?_set, h1]
      · have : ¬ ∃ c' ∈ c :: cs, c'.DBField = k ∧ c'.ReturningUpdate = false ∧ c'.RefuseUpdate = false := by
          rintro ⟨x, hx, hp⟩
          rcases List.mem_cons.mp hx with rfl | hx
          · exact hc hp
          · exact hcs ⟨x, hx, hp⟩
        rw [if_neg this]
        unfold updateStep
        by_cases h2 : c.ReturningUpdate = true
        · simp [h2]
        · by_cases h3 : c.RefuseUpdate = true
          · simp [h2, h3]
          · have h2f : c.ReturningUpdate = false := by simpa using h2
            have h3f : c.RefuseUpdate = false := by simpa using h3
            have hk : ¬ c.DBField = k := fun hk => hc ⟨hk, h2f, h3f⟩
            simp [h2f, h3f, GoMap.get?_set, hk]

theorem updateStep_fold_returning (cols : List Column) (acc : List String × Ex) :
    (cols.foldl updateStep acc).1 =
      acc.1 ++ (cols.filter (fun c => c.ReturningUpdate)).map (fun c => c.DBField) := by
  induction cols generalizing acc with
  | nil => simp
  | cons c cs ih =>
    rw [List.foldl_cons, ih]
    unfold updateStep
    by_cases h2 : c.ReturningUpdate = true
    · simp [h2]
    · by_cases h3 : c.RefuseUpdate = true <;> simp [h2, h3]

theorem updateStep_fold_set_nil (cols : List Column) (acc : List String × Ex) :
    (cols.foldl updateStep acc).2 = [] ↔
      acc.2 = [] ∧ ∀ c ∈ cols, ¬ (c.ReturningUpdate = false ∧ c.RefuseUpdate = false) := by
  induction cols generalizing acc with
  | nil => simp
  | cons c cs ih =>
    rw [List.foldl_cons, ih]
    unfold updateStep
    by_cases h2 : c.ReturningUpdate = true
    · simp [h2]
    · by_cases h3 : c.RefuseUpdate = true
      · simp [h2, h3]
      · have h2f : c.ReturningUpdate = false := by simpa using h2
        have h3f : c.RefuseUpdate = false := by simpa using h3
        simp [h2f, h3f, GoMap.set_ne_nil]

theorem insertStep_fold (cols : List Column) (acc : List String × List String × List String) :
    cols.foldl insertStep acc =
      (acc.1 ++ (cols.filter (fun c => !c.AutoIncrement && !c.ReturningInsert)).map (fun c => c.DBField),
       acc.2.1 ++ (cols.filter (fun c => c.ReturningInsert)).map (fun c => c.DBField),
       acc.2.2 ++ (cols.filter (fun c => !c.AutoIncrement && !c.ReturningInsert)).map
          (fun c => ":" ++ c.DBField)) := by
  induction cols generalizing acc with
  | nil => simp
  | cons c cs ih =>
    rw [List.foldl_cons, ih]
    unfold insertStep
    by_cases h1 : c.ReturningInsert = true
    · simp [h1]
    · by_cases h2 : c.AutoIncrement = true <;> simp [h1, h2]

theorem updateDataset_set (md : Metadata) (driver : String) :
    (updateDataset md driver).set = (md.Columns.foldl updateStep ([], [])).2 := by
  unfold updateDataset
  simp only []
  split <;> rfl

theorem updateDataset_returning (md : Metadata) (driver : String) :
    (updateDataset md driver).returning =
      (md.Columns.filter (fun c => c.ReturningUpdate)).map (fun c => c.DBField) := by
  have h := updateStep_fold_returning md.Columns ([], [])
  simp only [List.nil_append] at h
  unfold updateDataset
  simp only []
  split
  · exact h
  · rename_i hlen
    rw [h] at hlen
    simp only [gt_iff_lt, List.length_pos, ne_eq, not_not] at hlen
    simp [hlen]

theorem updateDataset_dialect (md : Metadata) (driver : String) :
    (updateDataset md driver).dialect = driverName driver := by
  unfold updateDataset
  simp only []
  split <;> rfl

theorem insertDataset_dialect (md : Metadata) (driver : String) :
    (insertDataset md driver).dialect = driverName driver := by
  unfold insertDataset
  simp only []
  split <;> rfl

theorem insertDataset_returning (md : Metadata) (driver : String) :
    (insertDataset md driver).returning =
      (md.Columns.filter (fun c => c.ReturningInsert)).map (fun c => c.DBField) := by
  unfold insertDataset
  simp only [insertStep_fold, List.nil_append]
  split
  · rfl
  · rename_i hlen
    simp only [gt_iff_lt, List.length_pos, ne_eq, not_not] at hlen
    simp [hlen]

theorem insertDataset_cols (md : Metadata) (driver : String) :
    (insertDataset md driver).cols =
      (md.Columns.filter (fun c => !c.AutoIncrement && !c.ReturningInsert)).map
        (fun c => c.DBField) := by
  unfold insertDataset
  simp only [insertStep_fold, List.nil_append]
  split <;> rfl

theorem insertDataset_vals (md : Metadata) (driver : String) :
    (insertDataset md driver).vals =
      [(md.Columns.filter (fun c => !c.AutoIncrement && !c.ReturningInsert)).map
        (fun c => ":" ++ c.DBField)] := by
  unfold insertDataset
  simp only [insertStep_fold, List.nil_append]
  split <;> rfl

theorem filter_map_ne_nil (cols : List Column) (p : Column → Bool)
    (h : ∃ c ∈ cols, p c = true) :
    (cols.filter p).map (fun c => c.DBField) ≠ [] := by
  obtain ⟨c, hc, hp⟩ := h
  intro hnil
  have hmem : c ∈ cols.filter p := List.mem_filter.mpr ⟨hc, hp⟩
  rw [List.map_eq_nil_iff] at hnil
  rw [hnil] at hmem
  exact List.not_mem_nil _ hmem

theorem driverName_pgx : driverName "pgx" = "postgres" := by
  simp [driverName]

theorem driverName_postgres : driverName "postgres" = "postgres" := by
  decide

theorem driverName_mysql : driverName "mysql" = "mysql" := by
  decide

theorem containsChars_iff (s sub : List Char) :
    containsChars s sub = true ↔ sub <:+: s := by
  induction s with
  | nil =>
    simp [containsChars, List.isEmpty_iff]
  | cons c cs ih =>
    simp only [containsChars, Bool.or_eq_true, ih, List.infix_cons_iff]
    simp

/-! ## Statement generation: the claims -/

/-- C1, as stated, fails: `counterColumn` of `counterMetadata` has
`RefuseUpdate = false`, yet its field is no key of the SET map, because the
loop of `updateStatement` sends a `ReturningUpdate` column to the RETURNING
list before it looks at `RefuseUpdate`. -/
theorem updateStatement_set_counterexample :
    counterColumn ∈ counterMetadata.Columns ∧ counterColumn.RefuseUpdate = false ∧
      GoMap.get? (updateDataset counterMetadata "postgres").set counterColumn.DBField = none := by
  decide

/-- C1, amended: for every metadata and driver, a field `k` is a key of the SET
map of `updateStatement`, bound to `v`, if and only if `v` is the placeholder
`":" ++ k` and some column with `DBField = k` is flagged neither
`ReturningUpdate` nor `RefuseUpdate`. -/
theorem updateStatement_set_iff (md : Metadata) (driver k v : String) :
    GoMap.get? (updateDataset md driver).set k = some v ↔
      (v = ":" ++ k ∧
        ∃ c ∈ md.Columns, c.DBField = k ∧ c.ReturningUpdate = false ∧ c.RefuseUpdate = false) := by
  rw [updateDataset_set, updateStep_fold_set]
  by_cases h : ∃ c ∈ md.Columns, c.DBField = k ∧ c.ReturningUpdate = false ∧ c.RefuseUpdate = false
  · rw [if_pos h]
    constructor
    · intro hv
      exact ⟨(Option.some.inj hv).symm, h⟩
    · rintro ⟨hv, _⟩
      rw [hv]
  · rw [if_neg h]
    constructor
    · intro hv
      simp [GoMap.get?] at hv
    · rintro ⟨_, h2⟩
      exact absurd h2 h

/-- C2: for every metadata and driver, `insertStatement` hands the builder (a)
as column list the fields of the columns flagged neither `AutoIncrement` nor
`ReturningInsert`, in declaration order, (b) one value row, of the same length,
whose i-th element is `":"` followed by the i-th insert column, and (c) as
RETURNING list the fields of the columns flagged `ReturningInsert`; every
position of the column list comes from a column with `AutoIncrement = false`. -/
theorem insertStatement_partition (g : Goqu) (md : Metadata) (driver : String) :
    (insertDataset md driver).cols =
        (md.Columns.filter (fun c => !c.AutoIncrement && !c.ReturningInsert)).map
          (fun c => c.DBField) ∧
      (insertDataset md driver).vals =
        [(insertDataset md driver).cols.map (fun f => ":" ++ f)] ∧
      (∀ row ∈ (insertDataset md driver).vals,
        row.length = (insertDataset md driver).cols.length) ∧
      (insertDataset md driver).returning =
        (md.Columns.filter (fun c => c.ReturningInsert)).map (fun c => c.DBField) ∧
      (∀ c ∈ md.Columns.filter (fun c => !c.AutoIncrement && !c.ReturningInsert),
        c.AutoIncrement = false ∧ c.ReturningInsert = false) ∧
      insertStatement g md driver =
        ((g.insertToSQL (insertDataset md driver)).1,
          WithStack (g.insertToSQL (insertDataset md driver)).2) := by
  refine ⟨insertDataset_cols md driver, ?_, ?_, insertDataset_returning md driver, ?_, rfl⟩
  · rw [insertDataset_vals, insertDataset_cols, List.map_map]
    rfl
  · intro row hrow
    rw [insertDataset_vals] at hrow
    rw [insertDataset_cols]
    simp only [List.mem_singleton] at hrow
    rw [hrow]
    simp
  · intro c hc
    have := (List.mem_filter.mp hc).2
    simpa using this

theorem supportsReturn_mysql (g : Goqu) : g.supportsReturn "mysql" = false := by
  simp [Goqu.supportsReturn]

theorem supportsReturn_postgres (g : Goqu) : g.supportsReturn "postgres" = true := by
  simp [Goqu.supportsReturn]

theorem insertStatement_err_of_rejected (g : Goqu) (md : Metadata) (driver : String)
    (hret : ∃ c ∈ md.Columns, c.ReturningInsert = true)
    (hsup : g.supportsReturn (driverName driver) = false) :
    (insertStatement g md driver).2 ≠ none := by
  have hne := filter_map_ne_nil md.Columns (fun c => c.ReturningInsert) hret
  rw [← insertDataset_returning md driver] at hne
  have hlen : 0 < (insertDataset md driver).returning.length := List.length_pos.mpr hne
  unfold insertStatement Goqu.insertToSQL
  simp [WithStack, Goqu.returningRejected, insertDataset_dialect, hsup, hlen]

theorem insertStatement_ok_of_supported (g : Goqu) (md : Metadata) (driver : String)
    (hsup : g.supportsReturn (driverName driver) = true) :
    insertStatement g md driver = (g.render (.insert (insertDataset md driver)), none) := by
  unfold insertStatement Goqu.insertToSQL
  simp [WithStack, Goqu.returningRejected, insertDataset_dialect, hsup]

theorem updateStatement_err_of_rejected (g : Goqu) (md : Metadata) (driver : String)
    (hret : ∃ c ∈ md.Columns, c.ReturningUpdate = true)
    (hsup : g.supportsReturn (driverName driver) = false) :
    (updateStatement g md driver).2 ≠ none := by
  have hne := filter_map_ne_nil md.Columns (fun c => c.ReturningUpdate) hret
  rw [← updateDataset_returning md driver] at hne
  have hlen : 0 < (updateDataset md driver).returning.length := List.length_pos.mpr hne
  unfold updateStatement Goqu.updateToSQL
  by_cases hset : (updateDataset md driver).set.isEmpty = true
  · simp [WithStack, hset]
  · simp [WithStack, hset, Goqu.returningRejected, updateDataset_dialect, hsup, hlen]

theorem updateDataset_set_isEmpty (md : Metadata) (driver : String) :
    (updateDataset md driver).set.isEmpty = true ↔
      ¬ ∃ c ∈ md.Columns, c.ReturningUpdate = false ∧ c.RefuseUpdate = false := by
  rw [List.isEmpty_iff, updateDataset_set, updateStep_fold_set_nil]
  simp

theorem updateStatement_ok_iff (g : Goqu) (md : Metadata) (driver : String)
    (hsup : g.supportsReturn (driverName driver) = true) :
    (updateStatement g md driver).2 = none ↔
      ∃ c ∈ md.Columns, c.ReturningUpdate = false ∧ c.RefuseUpdate = false := by
  unfold updateStatement Goqu.updateToSQL
  by_cases hset : (updateDataset md driver).set.isEmpty = true
  · have hno := (updateDataset_set_isEmpty md driver).mp hset
    simp only [hset, if_true, WithStack, Option.map_some']
    constructor
    · intro h
      exact absurd h (by simp)
    · intro h
      exact absurd h hno
  · have hyes : ∃ c ∈ md.Columns, c.ReturningUpdate = false ∧ c.RefuseUpdate = false := by
      by_contra hcon
      exact hset ((updateDataset_set_isEmpty md driver).mpr hcon)
    simp only [hset, Goqu.returningRejected, updateDataset_dialect, hsup, WithStack]
    simp
    exact hyes

/-- C3, as stated, fails: `versionedMetadata` has a column flagged
`ReturningUpdate`, and `updateStatement` on `postgres` returns an error all the
same, because both columns are kept out of the SET map and the builder rejects
an UPDATE without values. -/
theorem updateStatement_postgres_counterexample :
    (∃ c ∈ versionedMetadata.Columns, c.ReturningUpdate = true) ∧
      (updateDataset versionedMetadata "postgres").set = [] ∧
      (updateStatement sampleGoqu versionedMetadata "postgres").2 =
        some (GoError.withStack errNoUpdatedValuesProvided) := by
  refine ⟨⟨⟨"version", false, false, true, true, true⟩, by decide, rfl⟩, by decide, by decide⟩

/-- C3, amended: for every metadata with a `ReturningInsert` column,
`insertStatement` returns an error on `mysql` and no error on `postgres` and on
`pgx`; for every metadata with a `ReturningUpdate` column, `updateStatement`
returns an error on `mysql`, and on `postgres` and on `pgx` it returns no error
if and only if some column is flagged neither `ReturningUpdate` nor
`RefuseUpdate` (the SET map is not empty). The RETURNING list handed to the
builder is not empty on any driver, a statement that is returned is the text
of the dataset that carries it, and every driver whose dialect lacks RETURNING
gets an error: the clause is never dropped. -/
theorem returning_capability_split (g : Goqu) (md : Metadata) :
    ((∃ c ∈ md.Columns, c.ReturningInsert = true) →
      (insertStatement g md "mysql").2 ≠ none ∧
      insertStatement g md "postgres" =
        (g.render (.insert (insertDataset md "postgres")), none) ∧
      insertStatement g md "pgx" = insertStatement g md "postgres" ∧
      (∀ driver, (insertDataset md driver).returning ≠ []) ∧
      (∀ driver, g.supportsReturn (driverName driver) = false →
        (insertStatement g md driver).2 ≠ none)) ∧
    ((∃ c ∈ md.Columns, c.ReturningUpdate = true) →
      (updateStatement g md "mysql").2 ≠ none ∧
      ((updateStatement g md "postgres").2 = none ↔
        ∃ c ∈ md.Columns, c.ReturningUpdate = false ∧ c.RefuseUpdate = false) ∧
      updateStatement g md "pgx" = updateStatement g md "postgres" ∧
      (∀ driver, (updateDataset md driver).returning ≠ []) ∧
      (∀ driver, g.supportsReturn (driverName driver) = false →
        (updateStatement g md driver).2 ≠ none)) := by
  have hmy : g.supportsReturn (driverName "mysql") = false := by
    rw [driverName_mysql]
    exact supportsReturn_mysql g
  have hpg : g.supportsReturn (driverName "postgres") = true := by
    rw [driverName_postgres]
    exact supportsReturn_postgres g
  constructor
  · intro hret
    refine ⟨?_, ?_, rfl, ?_, ?_⟩
    · exact insertStatement_err_of_rejected g md "mysql" hret hmy
    · exact insertStatement_ok_of_supported g md "postgres" hpg
    · intro driver
      rw [insertDataset_returning]
      exact filter_map_ne_nil md.Columns (fun c => c.ReturningInsert) hret
    · intro driver hsup
      exact insertStatement_err_of_rejected g md driver hret hsup
  · intro hret
    refine ⟨?_, ?_, rfl, ?_, ?_⟩
    · exact updateStatement_err_of_rejected g md "mysql" hret hmy
    · exact updateStatement_ok_iff g md "postgres" hpg
    · intro driver
      rw [updateDataset_returning]
      exact filter_map_ne_nil md.Columns (fun c => c.ReturningUpdate) hret
    · intro driver hsup
      exact updateStatement_err_of_rejected g md driver hret hsup

/-- C3, amended, at `GenernalEntity` of the tests: both statements fail on
`mysql` and succeed on `postgres`, as `TestStatement` expects. -/
theorem returning_capability_split_witness :
    (∃ c ∈ genernalMetadata.Columns, c.ReturningInsert = true) ∧
    (∃ c ∈ genernalMetadata.Columns, c.ReturningUpdate = true) ∧
    (insertStatement sampleGoqu genernalMetadata "mysql").2 ≠ none ∧
    (insertStatement sampleGoqu genernalMetadata "postgres").2 = none ∧
    (updateStatement sampleGoqu genernalMetadata "mysql").2 ≠ none ∧
    (updateStatement sampleGoqu genernalMetadata "postgres").2 = none := by
  have hri : ∃ c ∈ genernalMetadata.Columns, c.ReturningInsert = true :=
    ⟨⟨"version", false, false, true, true, true⟩, by decide, rfl⟩
  have hru : ∃ c ∈ genernalMetadata.Columns, c.ReturningUpdate = true :=
    ⟨⟨"version", false, false, true, true, true⟩, by decide, rfl⟩
  have h := returning_capability_split sampleGoqu genernalMetadata
  refine ⟨hri, hru, (h.1 hri).1, ?_, (h.2 hru).1, ?_⟩
  · rw [(h.1 hri).2.1]
  · exact ((h.2 hru).2.1).mpr ⟨⟨"name", false, false, false, false, false⟩, by decide, rfl, rfl⟩

theorem stringsContains_iff (s sub : String) :
    stringsContains s sub = true ↔ sub.data <:+: s.data := by
  unfold stringsContains
  exact containsChars_iff s.data sub.data

/-- C10: for every driver string `d` and non-nil error `err`,
`isConflictError d err` holds if and only if `d` is `postgres` or `pgx` and the
message of the root cause contains "duplicate key value violates unique
constraint", or `d` is `mysql` and it contains "Duplicate entry", or `d` is
`sqlite3` and it contains "UNIQUE constraint failed"; so it is false for every
other driver. `driverName` maps `pgx` to `postgres`, leaves every other string
as it is, and is idempotent. -/
theorem isConflictError_iff (d : String) (err : GoError) :
    (isConflictError d err = true ↔
      ((d = "postgres" ∨ d = "pgx") ∧
        "duplicate key value violates unique constraint".data <:+: err.Cause.Error.data) ∨
      (d = "mysql" ∧ "Duplicate entry".data <:+: err.Cause.Error.data) ∨
      (d = "sqlite3" ∧ "UNIQUE constraint failed".data <:+: err.Cause.Error.data)) ∧
    ((d ≠ "postgres" ∧ d ≠ "pgx" ∧ d ≠ "mysql" ∧ d ≠ "sqlite3") →
      isConflictError d err = false) ∧
    driverName "pgx" = "postgres" ∧
    (∀ x : String, x ≠ "pgx" → driverName x = x) ∧
    (∀ x : String, driverName (driverName x) = driverName x) := by
  have hne : ∀ x : String, x ≠ "pgx" → driverName x = x := by
    intro x hx
    simp [driverName, hx]
  have hidem : ∀ x : String, driverName (driverName x) = driverName x := by
    intro x
    by_cases hx : x = "pgx"
    · subst hx
      decide
    · rw [hne x hx, hne x hx]
  refine ⟨?_, ?_, driverName_pgx, hne, hidem⟩
  · unfold isConflictError isPostgres isMySQL isSQLite3
    by_cases h1 : d = "pgx"
    · subst h1
      simp [driverName, stringsContains_iff]
    · rw [hne d h1]
      by_cases h2 : d = "postgres"
      · subst h2
        simp [stringsContains_iff]
      · by_cases h3 : d = "mysql"
        · subst h3
          simp [stringsContains_iff]
        · by_cases h4 : d = "sqlite3"
          · subst h4
            simp [stringsContains_iff]
          · simp [h1, h2, h3, h4]
  · rintro ⟨h2, h1, h3, h4⟩
    unfold isConflictError isPostgres isMySQL isSQLite3
    rw [hne d h1]
    simp [h2, h3, h4]

/-! ## Cached execution: lemmas -/

theorem queryRow_statements {Ent α : Type} (S : Statements) (calls : List Call) (zero : α)
    (stmt : String) (ent : Ent) (db : DB Ent) :
    (queryRow S calls zero stmt ent db).statements = S ∧
      (queryRow S calls zero stmt ent db).calls = calls ++ [Call.NamedQueryContext stmt] := by
  unfold queryRow
  simp only []
  split
  · exact ⟨rfl, rfl⟩
  · split
    · exact ⟨rfl, rfl⟩
    · split <;> exact ⟨rfl, rfl⟩

theorem insertRun_statements {Ent : Type} (md : Metadata) (S : Statements) (calls : List Call)
    (stmt : String) (ent : Ent) (db : DB Ent) :
    (insertRun md S calls stmt ent db).statements = S ∧
      (insertRun md S calls stmt ent db).calls =
        calls ++ [transportCall md.hasReturningInsert stmt] := by
  unfold insertRun transportCall
  cases md.hasReturningInsert with
  | true =>
    simp only [if_true]
    exact queryRow_statements S calls 0 stmt ent db
  | false =>
    simp only [Bool.false_eq_true, if_false]
    split
    · exact ⟨rfl, rfl⟩
    · split <;> exact ⟨rfl, rfl⟩

theorem updateRun_statements {Ent : Type} (md : Metadata) (S : Statements) (calls : List Call)
    (stmt : String) (ent : Ent) (db : DB Ent) :
    (updateRun md S calls stmt ent db).statements = S ∧
      (updateRun md S calls stmt ent db).calls =
        calls ++ [transportCall md.hasReturningUpdate stmt] := by
  unfold updateRun transportCall
  cases md.hasReturningUpdate with
  | true =>
    simp only [if_true]
    exact queryRow_statements S calls () stmt ent db
  | false =>
    simp only [Bool.false_eq_true, if_false]
    split
    · exact ⟨rfl, rfl⟩
    · split
      · exact ⟨rfl, rfl⟩
      · split <;> exact ⟨rfl, rfl⟩

theorem deleteRun_statements {Ent : Type} (md : Metadata) (S : Statements) (calls : List Call)
    (stmt : String) (ent : Ent) (db : DB Ent) :
    (deleteRun md S calls stmt ent db).statements = S ∧
      (deleteRun md S calls stmt ent db).calls = calls ++ [Call.NamedExecContext stmt] := by
  unfold deleteRun
  simp only []
  split <;> exact ⟨rfl, rfl⟩

theorem transportCall_injective (b : Bool) (s t : String)
    (h : transportCall b s = transportCall b t) : s = t := by
  unfold transportCall at h
  cases b <;> simpa using h

theorem transportCall_ne_generate (b : Bool) (s : String) (op : Operation) (d : String) :
    transportCall b s ≠ Call.generate op d := by
  unfold transportCall
  cases b <;> simp

theorem writeOnce_of_cases {Ent α : Type} (op : Operation) (slot : Statements → GoMap)
    (put : Statements → GoMap → Statements) (gen : String → String × Option GoError)
    (send : String → Call) (id : String)
    (run : Statements → Ent → DB Ent → Outcome Ent α) (ofType : Ent → Prop)
    (hslot : ∀ S m, slot (put S m) = m)
    (hinj : ∀ s t, send s = send t → s = t)
    (hne : ∀ s o d, send s ≠ Call.generate o d)
    (h1 : ∀ S ent db stmt, ofType ent → (slot S).get? id = some stmt →
      (run S ent db).statements = S ∧ (run S ent db).calls = [send stmt])
    (h2 : ∀ S ent db err, ofType ent → (slot S).get? id = none →
      (gen db.DriverName).2 = some err →
      (run S ent db).statements = S ∧ (run S ent db).err = some err ∧
        (run S ent db).calls = [Call.generate op db.DriverName])
    (h3 : ∀ S ent db, ofType ent → (slot S).get? id = none → (gen db.DriverName).2 = none →
      (run S ent db).statements = put S ((slot S).set id (gen db.DriverName).1) ∧
        (run S ent db).calls =
          [Call.generate op db.DriverName, send (gen db.DriverName).1]) :
    WriteOnce op slot put gen send id run ofType := by
  refine ⟨h1, h2, h3, ?_, ?_⟩
  · intro S ent₁ db₁ ent₂ db₂ stmt ht₁ ht₂ hmem
    cases hget : (slot S).get? id with
    | some stmt₀ =>
      obtain ⟨hs, hc⟩ := h1 S ent₁ db₁ stmt₀ ht₁ hget
      rw [hc, List.mem_singleton] at hmem
      have hst : stmt = stmt₀ := hinj _ _ hmem
      subst hst
      rw [hs]
      exact ⟨(h1 S ent₂ db₂ stmt ht₂ hget).2, (h1 S ent₂ db₂ stmt ht₂ hget).1⟩
    | none =>
      cases hgen : (gen db₁.DriverName).2 with
      | some err =>
        obtain ⟨_, _, hc⟩ := h2 S ent₁ db₁ err ht₁ hget hgen
        rw [hc, List.mem_singleton] at hmem
        exact absurd hmem (hne _ _ _)
      | none =>
        obtain ⟨hs, hc⟩ := h3 S ent₁ db₁ ht₁ hget hgen
        rw [hc] at hmem
        simp only [List.mem_cons, List.mem_singleton, List.not_mem_nil, or_false] at hmem
        rcases hmem with hmem | hmem
        · exact absurd hmem (hne _ _ _)
        · have hst : stmt = (gen db₁.DriverName).1 := hinj _ _ hmem
          have hhit : (slot (run S ent₁ db₁).statements).get? id = some stmt := by
            rw [hs, hslot, GoMap.get?_set, if_pos rfl, hst]
          exact ⟨(h1 _ ent₂ db₂ stmt ht₂ hhit).2, (h1 _ ent₂ db₂ stmt ht₂ hhit).1⟩
  · intro S ent db k v ht hk
    cases hget : (slot S).get? id with
    | some stmt₀ =>
      rw [(h1 S ent db stmt₀ ht hget).1] at hk
      exact Or.inl hk
    | none =>
      cases hgen : (gen db.DriverName).2 with
      | some err =>
        rw [(h2 S ent db err ht hget hgen).1] at hk
        exact Or.inl hk
      | none =>
        rw [(h3 S ent db ht hget hgen).1, hslot, GoMap.get?_set] at hk
        by_cases hid : id = k
        · rw [if_pos hid] at hk
          refine Or.inr ⟨hid.symm, rfl, ?_⟩
          have hv : (gen db.DriverName).1 = v := Option.some.inj hk
          rw [← hv, ← hgen]
        · rw [if_neg hid] at hk
          exact Or.inl hk

/-! ## Cached execution: the claims -/

/-- C8: for each of `doLoad`, `doInsert`, `doUpdate` and `doDelete`, for every
entity whose metadata is `md`, the statement map of the operation is written
once and holds successful generations only (`WriteOnce`): with an entry for
`md.ID` the stored text is sent to the transport, no generator is called and
the maps stay as they are, so a second call sends the same text whatever
driver name it sees; without an entry and with a failing generation the error
is returned, the transport is not called and the maps stay as they are; an
entry is added only when it was absent and generation succeeded, and it is the
generated text. -/
theorem statement_caches_write_once {Ent : Type} (g : Goqu)
    (getMetadata : Ent → Except GoError Metadata) (md : Metadata) :
    WriteOnce .select (fun S => S.selectStatements)
        (fun S m => { S with selectStatements := m }) (selectStatement g md)
        Call.NamedQueryContext md.ID (doLoad g getMetadata)
        (fun ent => getMetadata ent = .ok md) ∧
      WriteOnce .insert (fun S => S.insertStatements)
        (fun S m => { S with insertStatements := m }) (insertStatement g md)
        (transportCall md.hasReturningInsert) md.ID (doInsert g getMetadata)
        (fun ent => getMetadata ent = .ok md) ∧
      WriteOnce .update (fun S => S.updateStatements)
        (fun S m => { S with updateStatements := m }) (updateStatement g md)
        (transportCall md.hasReturningUpdate) md.ID (doUpdate g getMetadata)
        (fun ent => getMetadata ent = .ok md) ∧
      WriteOnce .delete (fun S => S.deleteStatements)
        (fun S m => { S with deleteStatements := m }) (deleteStatement g md)
        Call.NamedExecContext md.ID (doDelete g getMetadata)
        (fun ent => getMetadata ent = .ok md) := by
  refine ⟨?_, ?_, ?_, ?_⟩
  · apply writeOnce_of_cases
    · intro S m; rfl
    · intro s t h; simpa using h
    · intro s o d; simp
    · intro S ent db stmt hmd hget
      simp only [] at hmd hget
      simp only [doLoad, hmd, hget]
      simpa using queryRow_statements S [] () stmt ent db
    · intro S ent db err hmd hget hgen
      simp only [] at hmd hget
      have hpair : selectStatement g md db.DriverName =
          ((selectStatement g md db.DriverName).1, some err) := by rw [← hgen]
      simp only [doLoad, hmd, hget]
      rw [hpair]
      exact ⟨rfl, rfl, rfl⟩
    · intro S ent db hmd hget hgen
      simp only [] at hmd hget
      have hpair : selectStatement g md db.DriverName =
          ((selectStatement g md db.DriverName).1, none) := by rw [← hgen]
      simp only [doLoad, hmd, hget]
      rw [hpair]
      simpa using queryRow_statements _ [Call.generate .select db.DriverName] ()
        (selectStatement g md db.DriverName).1 ent db
  · apply writeOnce_of_cases
    · intro S m; rfl
    · exact transportCall_injective _
    · exact transportCall_ne_generate _
    · intro S ent db stmt hmd hget
      simp only [] at hmd hget
      simp only [doInsert, hmd, hget]
      simpa using insertRun_statements md S [] stmt ent db
    · intro S ent db err hmd hget hgen
      simp only [] at hmd hget
      have hpair : insertStatement g md db.DriverName =
          ((insertStatement g md db.DriverName).1, some err) := by rw [← hgen]
      simp only [doInsert, hmd, hget]
      rw [hpair]
      exact ⟨rfl, rfl, rfl⟩
    · intro S ent db hmd hget hgen
      simp only [] at hmd hget
      have hpair : insertStatement g md db.DriverName =
          ((insertStatement g md db.DriverName).1, none) := by rw [← hgen]
      simp only [doInsert, hmd, hget]
      rw [hpair]
      simpa using insertRun_statements md _ [Call.generate .insert db.DriverName]
        (insertStatement g md db.DriverName).1 ent db
  · apply writeOnce_of_cases
    · intro S m; rfl
    · exact transportCall_injective _
    · exact transportCall_ne_generate _
    · intro S ent db stmt hmd hget
      simp only [] at hmd hget
      simp only [doUpdate, hmd, hget]
      simpa using updateRun_statements md S [] stmt ent db
    · intro S ent db err hmd hget hgen
      simp only [] at hmd hget
      have hpair : updateStatement g md db.DriverName =
          ((updateStatement g md db.DriverName).1, some err) := by rw [← hgen]
      simp only [doUpdate, hmd, hget]
      rw [hpair]
      exact ⟨rfl, rfl, rfl⟩
    · intro S ent db hmd hget hgen
      simp only [] at hmd hget
      have hpair : updateStatement g md db.DriverName =
          ((updateStatement g md db.DriverName).1, none) := by rw [← hgen]
      simp only [doUpdate, hmd, hget]
      rw [hpair]
      simpa using updateRun_statements md _ [Call.generate .update db.DriverName]
        (updateStatement g md db.DriverName).1 ent db
  · apply writeOnce_of_cases
    · intro S m; rfl
    · intro s t h; simpa using h
    · intro s o d; simp
    · intro S ent db stmt hmd hget
      simp only [] at hmd hget
      simp only [doDelete, hmd, hget]
      simpa using deleteRun_statements md S [] stmt ent db
    · intro S ent db err hmd hget hgen
      simp only [] at hmd hget
      have hpair : deleteStatement g md db.DriverName =
          ((deleteStatement g md db.DriverName).1, some err) := by rw [← hgen]
      simp only [doDelete, hmd, hget]
      rw [hpair]
      exact ⟨rfl, rfl, rfl⟩
    · intro S ent db hmd hget hgen
      simp only [] at hmd hget
      have hpair : deleteStatement g md db.DriverName =
          ((deleteStatement g md db.DriverName).1, none) := by rw [← hgen]
      simp only [doDelete, hmd, hget]
      rw [hpair]
      simpa using deleteRun_statements md _ [Call.generate .delete db.DriverName]
        (deleteStatement g md db.DriverName).1 ent db

/-- C8 at `GenernalEntity` of the tests: an insert under `mysql` fails in
generation, calls the generator only and stores nothing; an insert under
`postgres` stores the generated text; a later insert under `mysql` sends that
stored text and calls no generator. -/
theorem statement_caches_write_once_witness :
    ((doInsert sampleGoqu (constMetadata genernalMetadata) emptyStatements ()
        (sampleDB "mysql" 1)).statements = emptyStatements ∧
      (doInsert sampleGoqu (constMetadata genernalMetadata) emptyStatements ()
        (sampleDB "mysql" 1)).calls = [Call.generate .insert "mysql"]) ∧
    (doInsert sampleGoqu (constMetadata genernalMetadata) emptyStatements ()
        (sampleDB "postgres" 1)).statements.insertStatements =
      [("genernal", "INSERT INTO genernal")] ∧
    (doInsert sampleGoqu (constMetadata genernalMetadata)
        (doInsert sampleGoqu (constMetadata genernalMetadata) emptyStatements ()
          (sampleDB "postgres" 1)).statements ()
        (sampleDB "mysql" 1)).calls = [Call.NamedQueryContext "INSERT INTO genernal"] := by
  have h := (statement_caches_write_once sampleGoqu (constMetadata genernalMetadata)
    genernalMetadata).2.1
  obtain ⟨_, h2, h3, h4, _⟩ := h
  refine ⟨?_, ?_, ?_⟩
  · have := h2 emptyStatements () (sampleDB "mysql" 1)
      (GoError.withStack (errReturnNotSupported "mysql")) rfl rfl (by decide)
    exact ⟨this.1, this.2.2⟩
  · have := (h3 emptyStatements () (sampleDB "postgres" 1) rfl rfl (by decide)).1
    rw [this]
    decide
  · exact (h4 emptyStatements () (sampleDB "postgres" 1) () (sampleDB "mysql" 1)
      "INSERT INTO genernal" rfl rfl (by decide)).1

/-- C9: for every entity whose metadata has `hasReturningUpdate = false`, with
the statement stored or generated without error, the exec succeeding and
`RowsAffected()` returning `(n, nil)` for an affected-row count `n` (so
`0 ≤ n`), `doUpdate` returns `nil` if and only if `n ≥ 1`, and otherwise
returns `sql.ErrNoRows` (with a stack, its cause being `sql.ErrNoRows`); an
update that affects zero rows yields not-found. -/
theorem doUpdate_rows_affected {Ent : Type} (g : Goqu)
    (getMetadata : Ent → Except GoError Metadata) (S : Statements) (ent : Ent) (db : DB Ent)
    (md : Metadata) (stmt : String) (result : Result) (n : Int)
    (hmd : getMetadata ent = .ok md)
    (hret : md.hasReturningUpdate = false)
    (hstmt : S.updateStatements.get? md.ID = some stmt ∨
      (S.updateStatements.get? md.ID = none ∧ updateStatement g md db.DriverName = (stmt, none)))
    (hexec : db.NamedExecContext stmt ent = .ok result)
    (hn : result.RowsAffected = (n, none))
    (hcount : 0 ≤ n) :
    ((doUpdate g getMetadata S ent db).err = none ↔ n ≥ 1) ∧
      (¬ n ≥ 1 →
        (doUpdate g getMetadata S ent db).err = some (GoError.withStack GoError.errNoRows)) ∧
      (n = 0 →
        (doUpdate g getMetadata S ent db).err = some (GoError.withStack GoError.errNoRows)) ∧
      (GoError.withStack GoError.errNoRows).Cause = GoError.errNoRows := by
  have hrun : ∀ S' calls, (updateRun md S' calls stmt ent db).err =
      if n = 0 then some (GoError.withStack GoError.errNoRows) else none := by
    intro S' calls
    simp only [updateRun, hret, Bool.false_eq_true, if_false, hexec, hn]
    split <;> simp [WithStack]
  have herr : (doUpdate g getMetadata S ent db).err =
      if n = 0 then some (GoError.withStack GoError.errNoRows) else none := by
    rcases hstmt with hget | ⟨hget, hgen⟩
    · simp only [doUpdate, hmd, hget]
      exact hrun _ _
    · simp only [doUpdate, hmd, hget, hgen]
      exact hrun _ _
  rw [herr]
  refine ⟨?_, ?_, ?_, rfl⟩
  · by_cases h0 : n = 0
    · simp [h0]
    · simp only [h0, if_false, true_iff]
      omega
  · intro h1
    have h0 : n = 0 := by omega
    simp [h0]
  · intro h0
    simp [h0]

/-- C9 at concrete inputs: without a returning column, three affected rows
give `nil` and zero affected rows give `sql.ErrNoRows`. -/
theorem doUpdate_rows_affected_witness :
    plainMetadata.hasReturningUpdate = false ∧
    (doUpdate sampleGoqu (constMetadata plainMetadata) emptyStatements ()
      (sampleDB "mysql" 3)).err = none ∧
    (doUpdate sampleGoqu (constMetadata plainMetadata) emptyStatements ()
      (sampleDB "mysql" 0)).err = some (GoError.withStack GoError.errNoRows) := by
  have h3 := doUpdate_rows_affected sampleGoqu (constMetadata plainMetadata) emptyStatements ()
    (sampleDB "mysql" 3) plainMetadata "UPDATE plain" ⟨(0, none), (3, none)⟩ 3 rfl rfl
    (Or.inr ⟨rfl, by decide⟩) rfl rfl (by decide)
  have h0 := doUpdate_rows_affected sampleGoqu (constMetadata plainMetadata) emptyStatements ()
    (sampleDB "mysql" 0) plainMetadata "UPDATE plain" ⟨(0, none), (0, none)⟩ 0 rfl rfl
    (Or.inr ⟨rfl, by decide⟩) rfl rfl (by decide)
  exact ⟨rfl, h3.1.mpr (by decide), h0.2.2.1 rfl⟩

/-! ## Cache layer: lemmas -/

theorem getCacheOption_ok {W E : Type} (cfg : CacheConfig W E)
    (T : Cacheable W E) (c : E) (opt : CacheOption W E)
    (h : (getCacheOption cfg T c).1 = .ok opt) :
    ∃ cacher,
      (match (T.CacheOption c).Cacher with
        | some x => some x
        | none => cfg.DefaultCacher) = some cacher ∧
      (T.CacheOption c).Key ≠ "" ∧
      opt =
        { Cacher := some cacher
          Key := (T.CacheOption c).Key
          Expiration :=
            if (T.CacheOption c).Expiration = 0 then cfg.DefaultExpiration
            else (T.CacheOption c).Expiration
          Encoder := (T.CacheOption c).Encoder
          Decoder := (T.CacheOption c).Decoder } := by
  unfold getCacheOption at h
  generalize T.CacheOption c = o at h ⊢
  obtain ⟨oc, ok, oe, oenc, odec⟩ := o
  cases oc with
  | none =>
    cases hd : cfg.DefaultCacher with
    | none => simp [hd] at h
    | some d =>
      by_cases hk : ok = "" <;> by_cases he : oe = 0 <;> simp [hd, hk, he] at h ⊢
      · exact h.symm
      · exact h.symm
  | some x =>
    by_cases hk : ok = "" <;> by_cases he : oe = 0 <;> simp [hk, he] at h ⊢
    · exact h.symm
    · exact h.symm

theorem getCacheOption_error_iff {W E : Type} (cfg : CacheConfig W E)
    (T : Cacheable W E) (c : E) :
    (∃ err, (getCacheOption cfg T c).1 = .error err) ↔
      (((T.CacheOption c).Cacher.isNone = true ∧ cfg.DefaultCacher.isNone = true) ∨
        (T.CacheOption c).Key = "") := by
  unfold getCacheOption
  generalize T.CacheOption c = o
  obtain ⟨oc, ok, oe, oenc, odec⟩ := o
  cases oc with
  | none =>
    cases hd : cfg.DefaultCacher with
    | none => simp [hd]
    | some d =>
      by_cases hk : ok = "" <;> by_cases he : oe = 0 <;> simp [hd, hk, he]
  | some x =>
    by_cases hk : ok = "" <;> by_cases he : oe = 0 <;> simp [hk, he]

theorem getCacheOption_fresh {W E : Type} (cfg : CacheConfig W E)
    (T : Cacheable W E) (c : E) (hfresh : ∀ x opt, T.store x opt = x) :
    (getCacheOption cfg T c).2 = c := by
  unfold getCacheOption
  generalize T.CacheOption c = o
  obtain ⟨oc, ok, oe, oenc, odec⟩ := o
  cases oc with
  | none =>
    cases hd : cfg.DefaultCacher with
    | none => simp [hd]
    | some d =>
      by_cases hk : ok = "" <;> by_cases he : oe = 0 <;> simp [hd, hk, he, hfresh]
  | some x =>
    by_cases hk : ok = "" <;> by_cases he : oe = 0 <;> simp [hk, he, hfresh]

theorem getCacheOption_filled {W E : Type} (cfg : CacheConfig W E)
    (T : Cacheable W E) (c : E) (hc : (T.CacheOption c).Cacher.isSome = true)
    (he : (T.CacheOption c).Expiration ≠ 0) :
    (getCacheOption cfg T c).2 = c := by
  unfold getCacheOption
  generalize T.CacheOption c = o at hc he
  obtain ⟨oc, ok, oe, oenc, odec⟩ := o
  cases oc with
  | none => simp at hc
  | some x =>
    simp only at he
    by_cases hk : ok = "" <;> simp [hk, he]

theorem encodeWith_ok {W E : Type} (cfg : CacheConfig W E)
    (T : Cacheable W E) (c : E) (opt : CacheOption W E)
    (h : (getCacheOption cfg T c).1 = .ok opt) (x : E) :
    encodeWith cfg opt x = encodeWith cfg (T.CacheOption c) x := by
  obtain ⟨cacher, _, _, hopt⟩ := getCacheOption_ok cfg T c opt h
  rw [hopt]
  rfl

theorem loadCache_of_error {W E : Type} (cfg : CacheConfig W E) (T : Cacheable W E) (c : E)
    (w : W) (err : GoError) (h : (getCacheOption cfg T c).1 = .error err) :
    loadCache cfg T c w = ⟨w, (getCacheOption cfg T c).2, false, some err, []⟩ := by
  unfold loadCache
  cases hg : getCacheOption cfg T c with
  | mk r c' =>
    rw [hg] at h
    simp only at h
    subst h
    rfl

theorem SaveCache_of_error {W E : Type} (cfg : CacheConfig W E) (T : Cacheable W E) (c : E)
    (w : W) (err : GoError) (h : (getCacheOption cfg T c).1 = .error err) :
    SaveCache cfg T c w = ⟨w, (getCacheOption cfg T c).2, (), some err, []⟩ := by
  unfold SaveCache
  cases hg : getCacheOption cfg T c with
  | mk r c' =>
    rw [hg] at h
    simp only at h
    subst h
    rfl

theorem DeleteCache_of_error {W E : Type} (cfg : CacheConfig W E) (T : Cacheable W E) (c : E)
    (w : W) (err : GoError) (h : (getCacheOption cfg T c).1 = .error err) :
    DeleteCache cfg T c w = ⟨w, (getCacheOption cfg T c).2, (), some err, []⟩ := by
  unfold DeleteCache
  cases hg : getCacheOption cfg T c with
  | mk r c' =>
    rw [hg] at h
    simp only at h
    subst h
    rfl

theorem loadCache_of_ok {W E : Type} (cfg : CacheConfig W E) (T : Cacheable W E) (c : E)
    (w : W) (opt : CacheOption W E) (cacher : Cacher W)
    (h : (getCacheOption cfg T c).1 = .ok opt) (hc : opt.Cacher = some cacher) :
    loadCache cfg T c w =
      match (cacher.Get opt.Key w).1.2 with
      | some err =>
        ⟨(cacher.Get opt.Key w).2, (getCacheOption cfg T c).2, false, WithStack (some err),
          [CacheCall.Get cacher.id opt.Key]⟩
      | none =>
        if (cacher.Get opt.Key w).1.1.length = 0 then
          ⟨(cacher.Get opt.Key w).2, (getCacheOption cfg T c).2, false, none,
            [CacheCall.Get cacher.id opt.Key]⟩
        else
          ⟨(cacher.Get opt.Key w).2,
            (decodeWith cfg opt (cacher.Get opt.Key w).1.1 (getCacheOption cfg T c).2).1.1,
            (decodeWith cfg opt (cacher.Get opt.Key w).1.1 (getCacheOption cfg T c).2).1.2.isNone,
            (decodeWith cfg opt (cacher.Get opt.Key w).1.1 (getCacheOption cfg T c).2).1.2,
            [CacheCall.Get cacher.id opt.Key] ++
              [(decodeWith cfg opt (cacher.Get opt.Key w).1.1 (getCacheOption cfg T c).2).2]⟩ := by
  unfold loadCache
  cases hg : getCacheOption cfg T c with
  | mk r c' =>
    rw [hg] at h
    simp only at h
    subst h
    simp only [hc]

theorem SaveCache_of_ok {W E : Type} (cfg : CacheConfig W E) (T : Cacheable W E) (c : E)
    (w : W) (opt : CacheOption W E) (cacher : Cacher W) (data : Bytes)
    (h : (getCacheOption cfg T c).1 = .ok opt) (hc : opt.Cacher = some cacher)
    (henc : (encodeWith cfg opt (getCacheOption cfg T c).2).1 = (data, none)) :
    SaveCache cfg T c w =
      ⟨(cacher.Put opt.Key data opt.Expiration w).2, (getCacheOption cfg T c).2, (),
        Wrap (cacher.Put opt.Key data opt.Expiration w).1 "save entity cache",
        [(encodeWith cfg opt (getCacheOption cfg T c).2).2,
          CacheCall.Put cacher.id opt.Key data opt.Expiration]⟩ := by
  unfold SaveCache
  cases hg : getCacheOption cfg T c with
  | mk r c' =>
    rw [hg] at h henc
    simp only at h henc
    subst h
    have h1 : (encodeWith cfg opt c').1.1 = data := by rw [henc]
    have h2 : (encodeWith cfg opt c').1.2 = none := by rw [henc]
    simp only [h2, hc, h1]

/-! ## Cache layer: the claims -/

/-- C4: `getCacheOption` fails if and only if the entity's `Cacher` and
`DefaultCacher` are both nil or the entity's `Key` is empty; and whenever it
fails, `SaveCache`, `loadCache` and `DeleteCache` return that error
(`loadCache` with `false`), make no call to a cacher or a codec, and leave the
state of the backends as it is. The entity is as `getCacheOption` left it, which
is the entity as it was for a type whose `CacheOption()` builds a fresh
struct. -/
theorem cache_misconfiguration_rejected {W E : Type} (cfg : CacheConfig W E)
    (T : Cacheable W E) (c : E) (w : W) :
    ((∃ err, (getCacheOption cfg T c).1 = .error err) ↔
      (((T.CacheOption c).Cacher.isNone = true ∧ cfg.DefaultCacher.isNone = true) ∨
        (T.CacheOption c).Key = "")) ∧
    (∀ err, (getCacheOption cfg T c).1 = .error err →
      ((SaveCache cfg T c w).err = some err ∧
        (SaveCache cfg T c w).calls = [] ∧
        (SaveCache cfg T c w).world = w) ∧
      ((loadCache cfg T c w).err = some err ∧
        (loadCache cfg T c w).value = false ∧
        (loadCache cfg T c w).ent = (getCacheOption cfg T c).2 ∧
        ((∀ x opt, T.store x opt = x) → (loadCache cfg T c w).ent = c) ∧
        (loadCache cfg T c w).calls = [] ∧
        (loadCache cfg T c w).world = w) ∧
      ((DeleteCache cfg T c w).err = some err ∧
        (DeleteCache cfg T c w).calls = [] ∧
        (DeleteCache cfg T c w).world = w)) := by
  refine ⟨getCacheOption_error_iff cfg T c, ?_⟩
  intro err herr
  rw [SaveCache_of_error cfg T c w err herr, loadCache_of_error cfg T c w err herr,
    DeleteCache_of_error cfg T c w err herr]
  refine ⟨⟨rfl, rfl, rfl⟩, ⟨rfl, rfl, rfl, ?_, rfl, rfl⟩, ⟨rfl, rfl, rfl⟩⟩
  intro hfresh
  exact getCacheOption_fresh cfg T c hfresh

/-- C4 at concrete inputs: an entity with an empty key, and an entity without
a cacher while `DefaultCacher` is nil, are rejected by all three operations
without a call. -/
theorem cache_misconfiguration_rejected_witness :
    ((SaveCache memoryConfig keylessOption ⟨true⟩ []).err = some (errorsNew "empty cache key") ∧
      (SaveCache memoryConfig keylessOption ⟨true⟩ []).calls = []) ∧
    ((loadCache (initialCacheConfig switchJSON) defaultedOption ⟨true⟩ []).err =
        some (errorsNew "require cacher") ∧
      (loadCache (initialCacheConfig switchJSON) defaultedOption ⟨true⟩ []).value = false ∧
      (loadCache (initialCacheConfig switchJSON) defaultedOption ⟨true⟩ []).calls = []) := by
  have h1 := (cache_misconfiguration_rejected memoryConfig keylessOption ⟨true⟩ []).2
    (errorsNew "empty cache key") rfl
  have h2 := (cache_misconfiguration_rejected (initialCacheConfig switchJSON) defaultedOption
    ⟨true⟩ []).2 (errorsNew "require cacher") rfl
  exact ⟨⟨h1.1.1, h1.1.2.1⟩, ⟨h2.2.1.1, h2.2.1.2.1, h2.2.1.2.2.2.2.1⟩⟩

/-- C6, as stated, fails: `idleSession` hands out the option struct it embeds,
with a cacher, a key and the zero expiration; `Get` returns no error and an
empty payload, `loadCache` returns `(false, nil)` after the one call `Get`,
and the entity is not as it was: `getCacheOption` has written
`DefaultExpiration` into the struct. -/
theorem loadCache_miss_counterexample :
    (memoryCacher.Get "session" []).1 = ([], none) ∧
    (loadCache sessionConfig sessionOption idleSession []).value = false ∧
    (loadCache sessionConfig sessionOption idleSession []).err = none ∧
    (loadCache sessionConfig sessionOption idleSession []).calls =
      [CacheCall.Get 1 "session"] ∧
    idleSession.Expiration = 0 ∧
    (loadCache sessionConfig sessionOption idleSession []).ent.Expiration = 300000000000 := by
  refine ⟨rfl, by decide, by decide, by decide, rfl, by decide⟩

/-- C6, amended: for every entity whose option resolves, if `Get` on the
resolved cacher returns no error and a payload of length zero, then `loadCache`
returns `(false, nil)`, makes the one call `Get` (so no decoder is called) and
leaves the entity as `getCacheOption` left it: as it was when `CacheOption()`
builds a fresh struct, and when the option has a cacher and a non-zero
expiration; otherwise the struct the entity handed out holds the defaults
written into it. And whenever `loadCache` returns `true`, the option resolved,
`Get` returned a payload of non-zero length without error, the decoder was
called on it and returned no error, and the error returned is `nil`. -/
theorem loadCache_miss {W E : Type} (cfg : CacheConfig W E)
    (T : Cacheable W E) (c : E) (w : W) (opt : CacheOption W E)
    (cacher : Cacher W) (data : Bytes) (w' : W)
    (hopt : (getCacheOption cfg T c).1 = .ok opt)
    (hcacher : opt.Cacher = some cacher)
    (hget : cacher.Get opt.Key w = ((data, none), w'))
    (hlen : data.length = 0) :
    ((loadCache cfg T c w).value = false ∧
      (loadCache cfg T c w).err = none ∧
      (loadCache cfg T c w).ent = (getCacheOption cfg T c).2 ∧
      ((∀ x o, T.store x o = x) → (loadCache cfg T c w).ent = c) ∧
      ((T.CacheOption c).Cacher.isSome = true → (T.CacheOption c).Expiration ≠ 0 →
        (loadCache cfg T c w).ent = c) ∧
      (loadCache cfg T c w).calls = [CacheCall.Get cacher.id opt.Key] ∧
      (∀ call ∈ (loadCache cfg T c w).calls, call.isDecode = false)) ∧
    (∀ (c₁ : E) (w₁ : W), (loadCache cfg T c₁ w₁).value = true →
      ∃ opt₁ cacher₁, (getCacheOption cfg T c₁).1 = .ok opt₁ ∧
        opt₁.Cacher = some cacher₁ ∧
        (cacher₁.Get opt₁.Key w₁).1.2 = none ∧
        (cacher₁.Get opt₁.Key w₁).1.1.length ≠ 0 ∧
        (decodeWith cfg opt₁ (cacher₁.Get opt₁.Key w₁).1.1 (getCacheOption cfg T c₁).2).1.2 =
          none ∧
        (decodeWith cfg opt₁ (cacher₁.Get opt₁.Key w₁).1.1 (getCacheOption cfg T c₁).2).2 ∈
          (loadCache cfg T c₁ w₁).calls ∧
        (loadCache cfg T c₁ w₁).err = none) := by
  constructor
  · have hval : loadCache cfg T c w =
        ⟨w', (getCacheOption cfg T c).2, false, none, [CacheCall.Get cacher.id opt.Key]⟩ := by
      rw [loadCache_of_ok cfg T c w opt cacher hopt hcacher]
      simp only [hget, hlen, if_true]
    rw [hval]
    refine ⟨rfl, rfl, rfl, ?_, ?_, rfl, ?_⟩
    · intro hfresh
      exact getCacheOption_fresh cfg T c hfresh
    · intro hc he
      exact getCacheOption_filled cfg T c hc he
    · intro call hcall
      simp only [List.mem_singleton] at hcall
      rw [hcall]
      rfl
  · intro c₁ w₁ htrue
    cases hopt₁ : (getCacheOption cfg T c₁).1 with
    | error err =>
      rw [loadCache_of_error cfg T c₁ w₁ err hopt₁] at htrue
      simp at htrue
    | ok opt₁ =>
      obtain ⟨cacher₁, _, _, hrec⟩ := getCacheOption_ok cfg T c₁ opt₁ hopt₁
      have hc₁ : opt₁.Cacher = some cacher₁ := by rw [hrec]
      refine ⟨opt₁, cacher₁, rfl, hc₁, ?_⟩
      rw [loadCache_of_ok cfg T c₁ w₁ opt₁ cacher₁ hopt₁ hc₁] at htrue ⊢
      cases hgerr : (cacher₁.Get opt₁.Key w₁).1.2 with
      | some err => simp [hgerr] at htrue
      | none =>
        simp only [hgerr] at htrue ⊢
        by_cases hl : (cacher₁.Get opt₁.Key w₁).1.1.length = 0
        · simp [hl] at htrue
        · simp only [hl, if_false] at htrue ⊢
          have hnone : (decodeWith cfg opt₁ (cacher₁.Get opt₁.Key w₁).1.1
              (getCacheOption cfg T c₁).2).1.2 = none := by
            simpa [Option.isNone_iff_eq_none] using htrue
          refine ⟨trivial, ?_, hnone, ?_, hnone⟩
          · exact hl
          · simp

/-- C6, amended, at concrete inputs: a load from the empty store, no save
before it, is a miss that calls `Get` only and leaves the switch as it was. -/
theorem loadCache_miss_witness :
    (memoryCacher.Get "switch" []).1 = ([], none) ∧
    (loadCache memoryConfig defaultedOption ⟨true⟩ []).value = false ∧
    (loadCache memoryConfig defaultedOption ⟨true⟩ []).err = none ∧
    (loadCache memoryConfig defaultedOption ⟨true⟩ []).ent = ⟨true⟩ ∧
    (loadCache memoryConfig defaultedOption ⟨true⟩ []).calls = [CacheCall.Get 1 "switch"] := by
  have h := (loadCache_miss memoryConfig defaultedOption ⟨true⟩ []
    { Cacher := some memoryCacher, Key := "switch", Expiration := 5 * Minute,
      Encoder := none, Decoder := none }
    memoryCacher [] [] rfl rfl rfl rfl).1
  exact ⟨rfl, h.1, h.2.1, h.2.2.2.1 (fun _ _ => rfl), h.2.2.2.2.2.1⟩

/-- C7: for every entity whose option resolves and whose encoding succeeds
with `data`, `SaveCache` makes exactly one `Put`, on the entity's cacher when
that is non-nil and on `DefaultCacher` otherwise, with the entity's key, with
`data` (the bytes of the entity's encoder when that is non-nil, of
`DefaultEnDecoder` otherwise), and with the entity's expiration when that is
not zero and `DefaultExpiration` when it is zero; the state of the backends and
the returned error are those of that `Put`. `DefaultExpiration` starts as five
minutes. The encoder sees the entity as `getCacheOption` left it. -/
theorem SaveCache_effective_parameters {W E : Type} (cfg : CacheConfig W E)
    (T : Cacheable W E) (c : E) (w : W) (opt : CacheOption W E) (data : Bytes)
    (hopt : (getCacheOption cfg T c).1 = .ok opt)
    (henc : (match (T.CacheOption c).Encoder with
      | some enc => enc.Encode (getCacheOption cfg T c).2
      | none => cfg.DefaultEnDecoder.Encode (getCacheOption cfg T c).2) = (data, none)) :
    (∃ cacher,
      (match (T.CacheOption c).Cacher with
        | some x => some x
        | none => cfg.DefaultCacher) = some cacher ∧
      (SaveCache cfg T c w).calls.filter CacheCall.isPut =
        [CacheCall.Put cacher.id (T.CacheOption c).Key data
          (if (T.CacheOption c).Expiration = 0 then cfg.DefaultExpiration
            else (T.CacheOption c).Expiration)] ∧
      (SaveCache cfg T c w).world =
        (cacher.Put (T.CacheOption c).Key data
          (if (T.CacheOption c).Expiration = 0 then cfg.DefaultExpiration
            else (T.CacheOption c).Expiration) w).2 ∧
      (SaveCache cfg T c w).err =
        Wrap (cacher.Put (T.CacheOption c).Key data
          (if (T.CacheOption c).Expiration = 0 then cfg.DefaultExpiration
            else (T.CacheOption c).Expiration) w).1 "save entity cache") ∧
    (∀ json : JSONEnDecoder E,
      (initialCacheConfig json : CacheConfig W E).DefaultExpiration = 300000000000) := by
  constructor
  · obtain ⟨cacher, hcacher, _, hrec⟩ := getCacheOption_ok cfg T c opt hopt
    refine ⟨cacher, hcacher, ?_⟩
    have hdata : (encodeWith cfg opt (getCacheOption cfg T c).2).1 = (data, none) := by
      rw [encodeWith_ok cfg T c opt hopt]
      unfold encodeWith
      cases henc' : (T.CacheOption c).Encoder with
      | none => simpa [henc'] using henc
      | some enc => simpa [henc'] using henc
    have hc : opt.Cacher = some cacher := by rw [hrec]
    have hk : opt.Key = (T.CacheOption c).Key := by rw [hrec]
    have he : opt.Expiration = (if (T.CacheOption c).Expiration = 0 then cfg.DefaultExpiration
        else (T.CacheOption c).Expiration) := by rw [hrec]
    have hnotput : (encodeWith cfg opt (getCacheOption cfg T c).2).2.isPut = false := by
      unfold encodeWith
      cases opt.Encoder <;> rfl
    rw [SaveCache_of_ok cfg T c w opt cacher data hopt hc hdata, hk, he]
    refine ⟨?_, rfl, rfl⟩
    simp only []
    rw [List.filter_cons_of_neg (by simp [hnotput]), List.filter_cons_of_pos (by rfl)]
    rfl
  · intro json
    simp [initialCacheConfig, Minute]

/-- C7 at concrete inputs: an entity that leaves cacher, codec and expiration
to the defaults is put once, on `DefaultCacher`, with the bytes of
`DefaultEnDecoder` and five minutes of expiration. -/
theorem SaveCache_effective_parameters_witness :
    (SaveCache memoryConfig defaultedOption ⟨true⟩ []).calls.filter CacheCall.isPut =
      [CacheCall.Put 1 "switch" [1] 300000000000] := by
  obtain ⟨cacher, hc, hput, _, _⟩ :=
    (SaveCache_effective_parameters memoryConfig defaultedOption ⟨true⟩ []
      { Cacher := some memoryCacher, Key := "switch", Expiration := 5 * Minute,
        Encoder := none, Decoder := none } [1] rfl rfl).1
  have hm : memoryCacher = cacher := Option.some.inj hc
  subst hm
  exact hput

/-- C5, as stated, fails: `switchEncoder` and `switchDecoder` satisfy
`decode(encode(s)) = s` for every switch, `memoryCacher` returns what was put,
and saving the switch that is on succeeds; yet loading into the zero-valued
switch returns `(false, nil)` and leaves it off, because the payload is empty
and `loadCache` takes an empty payload for a miss. -/
theorem cache_round_trip_counterexample :
    (∀ s t : Switch, (switchEncoder.Encode s).2 = none ∧
      switchDecoder.Decode (switchEncoder.Encode s).1 t = (s, none)) ∧
    (∀ (k : String) (d : Bytes) (x : Duration) (w : MemoryStore),
      (memoryCacher.Get k (memoryCacher.Put k d x w).2).1 = (d, none)) ∧
    (SaveCache memoryConfig switchOption ⟨true⟩ []).err = none ∧
    (loadCache memoryConfig switchOption ⟨false⟩
      (SaveCache memoryConfig switchOption ⟨true⟩ []).world).value = false ∧
    (loadCache memoryConfig switchOption ⟨false⟩
      (SaveCache memoryConfig switchOption ⟨true⟩ []).world).err = none ∧
    (loadCache memoryConfig switchOption ⟨false⟩
      (SaveCache memoryConfig switchOption ⟨true⟩ []).world).ent = ⟨false⟩ ∧
    (⟨false⟩ : Switch) ≠ ⟨true⟩ := by
  refine ⟨?_, ?_, by decide, by decide, by decide, by decide, by decide⟩
  · intro s t
    obtain ⟨b⟩ := s
    cases b <;> simp [switchEncoder, switchDecoder]
  · intro k d x w
    simp [memoryCacher, MemoryStore.read]

/-- C5, amended: for entities `e` and `z` of one type whose options resolve to
the same cacher and key, where `Get` after a successful `Put` of a key returns
the bytes put, the encoding of `e` succeeds with `data`, decoding `data` into
`z` yields `e` without error, and `data` is not empty, a successful `SaveCache`
of `e` followed by `loadCache` into `z` returns `(true, nil)` and leaves the
entity equal to `e`. The codec sees each entity as `getCacheOption` left it. -/
theorem cache_round_trip {W E : Type} (cfg : CacheConfig W E)
    (T : Cacheable W E) (e z : E) (w : W) (opte optz : CacheOption W E)
    (cacher : Cacher W) (data : Bytes)
    (hoe : (getCacheOption cfg T e).1 = .ok opte)
    (hoz : (getCacheOption cfg T z).1 = .ok optz)
    (hcacher : opte.Cacher = some cacher)
    (hsame : optz.Cacher = some cacher)
    (hkey : optz.Key = opte.Key)
    (hfaithful : ∀ (k : String) (d : Bytes) (x : Duration) (w₀ : W),
      (cacher.Put k d x w₀).1 = none → (cacher.Get k (cacher.Put k d x w₀).2).1 = (d, none))
    (henc : (encodeWith cfg opte (getCacheOption cfg T e).2).1 = (data, none))
    (hdec : (decodeWith cfg optz data (getCacheOption cfg T z).2).1 = (e, none))
    (hne : data ≠ [])
    (hsave : (SaveCache cfg T e w).err = none) :
    (loadCache cfg T z (SaveCache cfg T e w).world).value = true ∧
      (loadCache cfg T z (SaveCache cfg T e w).world).err = none ∧
      (loadCache cfg T z (SaveCache cfg T e w).world).ent = e := by
  rw [SaveCache_of_ok cfg T e w opte cacher data hoe hcacher henc] at hsave ⊢
  simp only at hsave ⊢
  have hput : (cacher.Put opte.Key data opte.Expiration w).1 = none := by
    cases hp : (cacher.Put opte.Key data opte.Expiration w).1 with
    | none => rfl
    | some err => simp [hp, Wrap] at hsave
  have hget := hfaithful opte.Key data opte.Expiration w hput
  have hg1 : (cacher.Get opte.Key (cacher.Put opte.Key data opte.Expiration w).2).1.1 = data := by
    rw [hget]
  have hg2 : (cacher.Get opte.Key (cacher.Put opte.Key data opte.Expiration w).2).1.2 = none := by
    rw [hget]
  have hlen : ¬ data.length = 0 := by
    intro h0
    exact hne (List.length_eq_zero.mp h0)
  have hd1 : (decodeWith cfg optz data (getCacheOption cfg T z).2).1.1 = e := by rw [hdec]
  have hd2 : (decodeWith cfg optz data (getCacheOption cfg T z).2).1.2 = none := by rw [hdec]
  rw [loadCache_of_ok cfg T z _ optz cacher hoz hsame]
  simp only [hkey, hg2, hg1, hlen, if_false, hd1, hd2]
  exact ⟨rfl, trivial, trivial⟩

/-- C5, amended, at concrete inputs: a switch that is on, saved with the
defaults, is loaded back into the zero-valued switch. -/
theorem cache_round_trip_witness :
    (SaveCache memoryConfig defaultedOption ⟨true⟩ []).err = none ∧
    (loadCache memoryConfig defaultedOption ⟨false⟩
      (SaveCache memoryConfig defaultedOption ⟨true⟩ []).world).value = true ∧
    (loadCache memoryConfig defaultedOption ⟨false⟩
      (SaveCache memoryConfig defaultedOption ⟨true⟩ []).world).err = none ∧
    (loadCache memoryConfig defaultedOption ⟨false⟩
      (SaveCache memoryConfig defaultedOption ⟨true⟩ []).world).ent = ⟨true⟩ := by
  have hsave : (SaveCache memoryConfig defaultedOption ⟨true⟩ []).err = none := by decide
  have h := cache_round_trip memoryConfig defaultedOption ⟨true⟩ ⟨false⟩ []
    { Cacher := some memoryCacher, Key := "switch", Expiration := 5 * Minute,
      Encoder := none, Decoder := none }
    { Cacher := some memoryCacher, Key := "switch", Expiration := 5 * Minute,
      Encoder := none, Decoder := none }
    memoryCacher [1] rfl rfl rfl rfl rfl
    (by intro k d x w₀ _; simp [memoryCacher, MemoryStore.read])
    rfl rfl (by decide) hsave
  exact ⟨hsave, h⟩

end Entity
